import Mathlib

/-!
Shallow embedding of the mini-amazon marketplace core (cart checkout, balance
ledger, inventory store, purchase queries) from `app/models/cart.py`,
`app/models/user.py`, `app/models/inventory.py`, `app/models/purchases.py`.

Conventions:
* SQL tables are Lean lists of row structures; rows are appended in insertion
  order, and `SERIAL` primary keys are modelled by explicit `next_*` counters
  carried in the state.
* Each Python function that talks to the database becomes a Lean function from
  `DBState` to `DBState` plus its return value.  A `with engine.begin()` block
  is atomic: if an exception escapes it, none of the writes made on that
  connection survive.  `submit_order` takes a fault oracle so that an exception
  raised at any step of its commit phase can be modelled.
* Python `Decimal`/`float` prices are modelled as exact rationals (`Rat`);
  `int(x)` is truncation toward zero, Python 3 `round` is round-half-to-even.
-/

namespace MiniAmazon

/-- A single-quote character as a string (used in error messages). -/
def squote : String := String.singleton (Char.ofNat 39)

/-- `quoted s` renders `'s'`, as Python f-strings `'{name}'` do. -/
def quoted (s : String) : String := squote ++ s ++ squote

/-- Floor of a rational as an integer (`Int.fdiv` is floor division). -/
def ratFloor (q : Rat) : Int := q.num.fdiv q.den

/-- Python `int(x)`: truncation toward zero, on an exact rational. -/
def pyTrunc (q : Rat) : Int := q.num.sign * (q.num.natAbs / q.den : Nat)

/-- Python 3 `round(x)`: nearest integer, ties to even, on an exact rational. -/
def pyRound (q : Rat) : Int :=
  let f := ratFloor q
  let frac := q - (f : Rat)
  if frac < 1/2 then f
  else if 1/2 < frac then f + 1
  else if f % 2 = 0 then f else f + 1

/-- Render integer cents as a dollar string with two decimals, as the Python
`f"${cents/100:.2f}"` formatting does (modelled exactly on cents). -/
def centsToDollars (c : Int) : String :=
  let n := c.natAbs
  (if c < 0 then "-" else "") ++ toString (n / 100) ++ "." ++
    (if n % 100 < 10 then "0" else "") ++ toString (n % 100)

/-! ## Table rows -/

/-- Row of the `Products` table (catalog). `price` is nullable. -/
structure ProductRow where
  id : Nat
  name : String
  price : Option Rat
  available : Option Bool
deriving DecidableEq, Repr

/-- Row of the `Inventory` table, keyed by `(user_id, product_id)`. -/
structure InventoryRow where
  user_id : Nat
  product_id : Nat
  quantity : Int
deriving DecidableEq, Repr

/-- Row of the `Cart` table. -/
structure CartRow where
  id : Nat
  user_id : Nat
deriving DecidableEq, Repr

/-- Row of the `CartItem` table. -/
structure CartItemRow where
  id : Nat
  cart_id : Nat
  product_id : Nat
  quantity : Int
deriving DecidableEq, Repr

/-- Row of the `account_balance` table (one per user, `user_id` unique). -/
structure BalanceRow where
  user_id : Nat
  balance_cents : Int
deriving DecidableEq, Repr

/-- Row of the `balance_tx` ledger table (append-only). -/
structure BalanceTxRow where
  user_id : Nat
  amount_cents : Int
  note : String
deriving DecidableEq, Repr

/-- Row of the `orders` table; `created_at` comes from the model clock. -/
structure OrderRow where
  id : Nat
  buyer_id : Nat
  total_cents : Int
  fulfilled : Bool
  created_at : Nat
deriving DecidableEq, Repr

/-- Row of the `order_items` table; `fulfilled_at` is a nullable timestamp. -/
structure OrderItemRow where
  id : Nat
  order_id : Nat
  product_id : Nat
  seller_id : Nat
  quantity : Int
  unit_price_cents : Int
  fulfilled_at : Option Nat
deriving DecidableEq, Repr

/-- Row of the `Users` table (only the field the purchase queries read). -/
structure UserRow where
  id : Nat
  full_name : String
deriving DecidableEq, Repr

/-- The whole database, plus `SERIAL` counters and a clock for `NOW()`. -/
structure DBState where
  users : List UserRow
  products : List ProductRow
  inventory : List InventoryRow
  carts : List CartRow
  cart_items : List CartItemRow
  balances : List BalanceRow
  balance_tx : List BalanceTxRow
  orders : List OrderRow
  order_items : List OrderItemRow
  next_cart_id : Nat
  next_cart_item_id : Nat
  next_order_id : Nat
  next_order_item_id : Nat
  clock : Nat
deriving DecidableEq, Repr

/-! ## `app/models/user.py` -/

/-- Row lookup behind `get_balance`: the stored balance of `uid`, or 0. -/
def getBalanceList (bs : List BalanceRow) (uid : Nat) : Int :=
  match bs.find? (fun b => b.user_id = uid) with
  | some b => b.balance_cents
  | none => 0

/-- `User.get_balance`: `SELECT balance_cents FROM account_balance WHERE
user_id = :user_id`, returning `rows[0][0] if rows else 0`. -/
def get_balance (st : DBState) (uid : Nat) : Int :=
  getBalanceList st.balances uid

/-- Upsert helper for the `account_balance` row of `uid` (the Python
insert-if-absent followed by `UPDATE ... SET balance_cents = :new_balance`). -/
def setBalance (bs : List BalanceRow) (uid : Nat) (v : Int) : List BalanceRow :=
  if bs.any (fun b => b.user_id = uid) then
    bs.map (fun b => if b.user_id = uid then { b with balance_cents := v } else b)
  else bs ++ [⟨uid, v⟩]

/-- `User.adjust_balance`.  Runs in its own `engine.begin()` transaction: on
the `ValueError('Insufficient funds')` raise, the whole block rolls back, so
the error outcome is paired with the untouched input state. -/
def adjust_balance (st : DBState) (uid : Nat) (delta : Int) (note : String) :
    DBState × Except String Int :=
  if delta = 0 then (st, .ok (get_balance st uid))
  else
    let cur := get_balance st uid
    let newb := cur + delta
    if newb < 0 then (st, .error "Insufficient funds")
    else
      ({ st with
          balances := setBalance st.balances uid newb
          balance_tx := st.balance_tx ++ [⟨uid, delta, note⟩] },
       .ok newb)

/-! ## `app/models/inventory.py` -/

/-- `add_product_to_inventory`: upsert that adds `qty` to an existing
`(user, product)` row or inserts a new row with `qty`. -/
def add_product_to_inventory (st : DBState) (uid pid : Nat) (qty : Int) : DBState :=
  match st.inventory.find? (fun r => r.user_id = uid ∧ r.product_id = pid) with
  | some r =>
      { st with inventory := st.inventory.map (fun x =>
          if x.user_id = uid ∧ x.product_id = pid
          then { x with quantity := r.quantity + qty } else x) }
  | none => { st with inventory := st.inventory ++ [⟨uid, pid, qty⟩] }

/-- `update_product_quantity`: overwrites the stored quantity with
`new_quantity` if the row exists (`true`), else a 404 result (`false`).
The new quantity is written as given, with no check of any kind. -/
def update_product_quantity (st : DBState) (uid pid : Nat) (newq : Int) :
    DBState × Bool :=
  if st.inventory.any (fun r => r.user_id = uid ∧ r.product_id = pid) then
    ({ st with inventory := st.inventory.map (fun x =>
        if x.user_id = uid ∧ x.product_id = pid
        then { x with quantity := newq } else x) },
     true)
  else (st, false)

/-- `remove_product_from_inventory`: deletes the `(user, product)` row if it
exists (`true`), else a 404 result (`false`). -/
def remove_product_from_inventory (st : DBState) (uid pid : Nat) :
    DBState × Bool :=
  if st.inventory.any (fun r => r.user_id = uid ∧ r.product_id = pid) then
    ({ st with inventory := st.inventory.filter (fun r =>
        ¬ (r.user_id = uid ∧ r.product_id = pid)) },
     true)
  else (st, false)

/-- Whether some `order_items` row for `(seller, product)` has
`fulfilled_at IS NULL` (an outstanding unfulfilled order line). -/
def hasOutstandingLine (st : DBState) (uid pid : Nat) : Prop :=
  ∃ oi ∈ st.order_items,
    oi.seller_id = uid ∧ oi.product_id = pid ∧ oi.fulfilled_at = none

instance (st : DBState) (uid pid : Nat) : Decidable (hasOutstandingLine st uid pid) := by
  unfold hasOutstandingLine; infer_instance

/-! ## `app/models/cart.py` — cart maintenance -/

/-- `get_or_create_cart`: returns the existing `Cart` row id for `uid`, or
inserts a new row (this insert is auto-committed, it survives later errors). -/
def get_or_create_cart (st : DBState) (uid : Nat) : DBState × Nat :=
  match st.carts.find? (fun c => c.user_id = uid) with
  | some c => (st, c.id)
  | none =>
      let cid := st.next_cart_id
      ({ st with carts := st.carts ++ [⟨cid, uid⟩], next_cart_id := cid + 1 }, cid)

/-- `_ensure_product_available`: `none` if the insert may proceed, otherwise
the `CartError` message.  The Python code skips the availability test when the
`available` column is SQL `NULL` (`available is not None and not bool(..)`). -/
def ensure_product_available (st : DBState) (pid : Nat) : Option String :=
  match st.products.find? (fun p => p.id = pid) with
  | none => some "Product does not exist."
  | some p =>
      match p.available with
      | none => none
      | some b => if b then none else some "Product is not available for purchase right now."

/-- `add_item_to_cart`: adds `qty` to an existing line (deleting it when the
result is ≤ 0); a brand-new line is inserted only after
`_ensure_product_available` passes.  The error case returns the `CartError`
message; the lazily-created `Cart` row persists even then. -/
def add_item_to_cart (st : DBState) (uid pid : Nat) (qty : Int) :
    DBState × Option String :=
  let (st1, cid) := get_or_create_cart st uid
  match st1.cart_items.find? (fun ci => ci.cart_id = cid ∧ ci.product_id = pid) with
  | some item =>
      let newq := item.quantity + qty
      if newq ≤ 0 then
        ({ st1 with cart_items := st1.cart_items.filter (fun ci => ¬ ci.id = item.id) }, none)
      else
        ({ st1 with cart_items := st1.cart_items.map (fun ci =>
            if ci.id = item.id then { ci with quantity := newq } else ci) }, none)
  | none =>
      if 0 < qty then
        match ensure_product_available st1 pid with
        | some e => (st1, some e)
        | none =>
            ({ st1 with
                cart_items := st1.cart_items ++ [⟨st1.next_cart_item_id, cid, pid, qty⟩]
                next_cart_item_id := st1.next_cart_item_id + 1 }, none)
      else (st1, none)

/-- `set_item_quantity`: quantity ≤ 0 deletes the line; an existing line is
overwritten; a new line is inserted only after the availability check. -/
def set_item_quantity (st : DBState) (uid pid : Nat) (qty : Int) :
    DBState × Option String :=
  let (st1, cid) := get_or_create_cart st uid
  if qty ≤ 0 then
    ({ st1 with cart_items := st1.cart_items.filter (fun ci =>
        ¬ (ci.cart_id = cid ∧ ci.product_id = pid)) }, none)
  else if st1.cart_items.any (fun ci => ci.cart_id = cid ∧ ci.product_id = pid) then
    ({ st1 with cart_items := st1.cart_items.map (fun ci =>
        if ci.cart_id = cid ∧ ci.product_id = pid then { ci with quantity := qty } else ci) },
     none)
  else
    match ensure_product_available st1 pid with
    | some e => (st1, some e)
    | none =>
        ({ st1 with
            cart_items := st1.cart_items ++ [⟨st1.next_cart_item_id, cid, pid, qty⟩]
            next_cart_item_id := st1.next_cart_item_id + 1 }, none)

/-- The scalar subquery `(SELECT id FROM Cart WHERE user_id = :uid)`. -/
def userCartId (st : DBState) (uid : Nat) : Option Nat :=
  (st.carts.find? (fun c => c.user_id = uid)).map (fun c => c.id)

/-- `DELETE FROM CartItem WHERE cart_id = (SELECT id FROM Cart WHERE ...)`,
used both by `clear_cart` and by the last step of `submit_order`. -/
def clearCartItems (st : DBState) (uid : Nat) : DBState :=
  match userCartId st uid with
  | none => st
  | some cid =>
      { st with cart_items := st.cart_items.filter (fun ci => ¬ ci.cart_id = cid) }

/-! ## `app/models/cart.py` — checkout -/

/-- One row of `submit_order`'s opening cart query (`CartItem` joined to
`Cart` and inner-joined to `Products`, ordered by `ci.id`). -/
structure CartLine where
  product_id : Nat
  quantity : Int
  price : Option Rat
  name : String
deriving DecidableEq, Repr

/-- Insert `a` into a sorted list, before the first element it is `le` to
(stable: an element inserted earlier stays in front of later equal ones). -/
def insertSortedBy (le : α → α → Bool) (a : α) : List α → List α
  | [] => [a]
  | b :: bs => if le a b then a :: b :: bs else b :: insertSortedBy le a bs

/-- Stable insertion sort, modelling SQL `ORDER BY` deterministically. -/
def sortBy (le : α → α → Bool) : List α → List α
  | [] => []
  | a :: as => insertSortedBy le a (sortBy le as)

/-- The cart query of `submit_order` (and, modulo the price formatting, of
`get_cart_for_user`): items of `uid`'s cart joined to the catalog. -/
def cartLines (st : DBState) (uid : Nat) : List CartLine :=
  (sortBy (fun a b => a.id ≤ b.id)
    (st.cart_items.filter (fun ci =>
      st.carts.any (fun c => c.id = ci.cart_id ∧ c.user_id = uid)))).filterMap (fun ci =>
    (st.products.find? (fun p => p.id = ci.product_id)).map (fun p =>
      ⟨ci.product_id, ci.quantity, p.price, p.name⟩))

/-- `ORDER BY quantity DESC LIMIT 1` over a row list: the first row carrying
the maximal quantity (the spec's "tie-break: arbitrary/stable by insertion"). -/
def maxByQty : List InventoryRow → Option InventoryRow
  | [] => none
  | r :: rs =>
      match maxByQty rs with
      | none => some r
      | some m => if r.quantity < m.quantity then some m else some r

/-- The seller auto-selection query of `submit_order`: an inventory row with
`product_id = pid AND quantity >= qty AND user_id != buyer`, preferring the
largest quantity. -/
def findSeller (st : DBState) (pid : Nat) (qty : Int) (buyer : Nat) :
    Option InventoryRow :=
  maxByQty (st.inventory.filter (fun r =>
    r.product_id = pid ∧ qty ≤ r.quantity ∧ ¬ r.user_id = buyer))

/-- The per-line price snapshot `int(float(price) * 100)`, with the exact
rational standing in for the `float`: truncation toward zero of `price×100`. -/
def unitPriceCents (price : Rat) : Int := pyTrunc (price * 100)

def noPriceMsg (name : String) : String :=
  "Product " ++ quoted name ++ " has no price"

def noSellerMsg (name : String) (qty : Int) : String :=
  "Product " ++ quoted name ++ " has no seller with sufficient inventory (need "
    ++ toString qty ++ ")"

def insufficientBalanceMsg (required available : Int) : String :=
  "Insufficient balance. Required: $" ++ centsToDollars required
    ++ ", Available: $" ++ centsToDollars available

/-- One entry of `items_to_order`. -/
structure OrderPlan where
  product_id : Nat
  seller_id : Nat
  quantity : Int
  unit_price_cents : Int
  name : String
deriving DecidableEq, Repr

/-- The validation loop of `submit_order`: per line, require a price and an
eligible seller, snapshot the unit price and accumulate the total; the first
failing line aborts with its message. -/
def validateLines (st : DBState) (buyer : Nat) :
    List CartLine → Except String (List OrderPlan × Int)
  | [] => .ok ([], 0)
  | line :: rest =>
      match line.price with
      | none => .error (noPriceMsg line.name)
      | some price =>
          match findSeller st line.product_id line.quantity buyer with
          | none => .error (noSellerMsg line.name line.quantity)
          | some srow =>
              let unit := unitPriceCents price
              match validateLines st buyer rest with
              | .error e => .error e
              | .ok (plans, total) =>
                  .ok (⟨line.product_id, srow.user_id, line.quantity, unit, line.name⟩ :: plans,
                       unit * line.quantity + total)

/-- Result of a run of (part of) the commit phase: the state reached together
with the next step index, or the state at the moment an exception was raised. -/
inductive CommitRes where
  | ok (st : DBState) (k : Nat)
  | fail (st : DBState) (e : String)
deriving DecidableEq, Repr

/-- The fault oracle: `some (k, e)` makes commit-phase step `k` raise an
exception rendered as `e`; `none` lets every step succeed. -/
def failsAt (fa : Option (Nat × String)) (k : Nat) : Option String :=
  match fa with
  | some (i, e) => if i = k then some e else none
  | none => none

/-- `INSERT INTO orders (buyer_id, total_cents, fulfilled) VALUES (.., .., FALSE)
RETURNING id` (step 0 of the commit phase). -/
def insertOrderRow (st : DBState) (buyer : Nat) (total : Int) : DBState × Nat :=
  let oid := st.next_order_id
  ({ st with
      orders := st.orders ++ [⟨oid, buyer, total, false, st.clock⟩]
      next_order_id := oid + 1
      clock := st.clock + 1 }, oid)

/-- `INSERT INTO order_items (order_id, product_id, seller_id, quantity,
unit_price_cents) VALUES ...` for one planned line. -/
def insertItemRow (st : DBState) (oid : Nat) (p : OrderPlan) : DBState :=
  { st with
      order_items := st.order_items ++
        [⟨st.next_order_item_id, oid, p.product_id, p.seller_id, p.quantity,
          p.unit_price_cents, none⟩]
      next_order_item_id := st.next_order_item_id + 1 }

/-- `UPDATE Inventory SET quantity = quantity - :qty WHERE user_id = :seller_id
AND product_id = :product_id` for one planned line. -/
def decrementInventory (st : DBState) (p : OrderPlan) : DBState :=
  { st with inventory := st.inventory.map (fun r =>
      if r.user_id = p.seller_id ∧ r.product_id = p.product_id
      then { r with quantity := r.quantity - p.quantity } else r) }

/-- The per-item commit loop (order-line insert then inventory decrement),
threading the step counter for the fault oracle. -/
def applyPlanItems (fa : Option (Nat × String)) (oid : Nat) :
    DBState → Nat → List OrderPlan → CommitRes
  | st, k, [] => .ok st k
  | st, k, p :: ps =>
      match failsAt fa k with
      | some e => .fail st e
      | none =>
          let st1 := insertItemRow st oid p
          match failsAt fa (k+1) with
          | some e => .fail st1 e
          | none => applyPlanItems fa oid (decrementInventory st1 p) (k+2) ps

/-- One step of building the `seller_totals` dict (Python dicts preserve
insertion order; a missing key is inserted at the end with its earnings). -/
def addEarnings (acc : List (Nat × Int)) (s : Nat) (e : Int) : List (Nat × Int) :=
  if acc.any (fun x => x.1 = s) then
    acc.map (fun x => if x.1 = s then (x.1, x.2 + e) else x)
  else acc ++ [(s, e)]

/-- The `seller_totals` dict: aggregate earnings per seller in first-occurrence
order. -/
def sellerTotals (plans : List OrderPlan) : List (Nat × Int) :=
  plans.foldl (fun acc p => addEarnings acc p.seller_id (p.unit_price_cents * p.quantity)) []

/-- The seller-credit loop: one `User.adjust_balance` call per dict entry.
Each such call commits in its own transaction (see `adjust_balance`), so the
state it produced is durable even if a later step raises. -/
def creditSellers (fa : Option (Nat × String)) (oid : Nat) :
    DBState → Nat → List (Nat × Int) → CommitRes
  | st, k, [] => .ok st k
  | st, k, (s, earn) :: rest =>
      match failsAt fa k with
      | some e => .fail st e
      | none =>
          match adjust_balance st s earn ("Order #" ++ toString oid ++ " sale") with
          | (st1, .error e) => .fail st1 e
          | (st1, .ok _) => creditSellers fa oid st1 (k+1) rest

/-- Rollback of the `with db.engine.begin() as conn` block: the tables (and
serial counters) written through `conn` — orders, order items, inventory,
cart items — revert to their pre-transaction contents; everything written by
the separately-committed `adjust_balance` transactions stays as it is now. -/
def rollbackConn (orig cur : DBState) : DBState :=
  { cur with
      orders := orig.orders
      order_items := orig.order_items
      inventory := orig.inventory
      cart_items := orig.cart_items
      next_order_id := orig.next_order_id
      next_order_item_id := orig.next_order_item_id
      clock := orig.clock }

/-- The `(order_id, error)` pair of `submit_order`, together with the database
state it leaves behind. -/
structure SubmitOutcome where
  state : DBState
  order_id : Option Nat
  error : Option String
deriving DecidableEq, Repr

/-- The `except Exception` handler of `submit_order`: the transaction rolls
back and a generic message wrapping the exception text is returned. -/
def orderAbort (orig cur : DBState) (e : String) : SubmitOutcome :=
  ⟨rollbackConn orig cur, none, some ("Error processing order: " ++ e)⟩

/-- The commit phase of `submit_order` (the body of the `try`), with step
indices: 0 = order insert; 1+2i / 2+2i = line-i insert / decrement;
then the buyer debit, one credit per `seller_totals` entry, the cart delete,
and finally the transaction commit itself. -/
def submitCommit (st0 : DBState) (buyer : Nat) (plans : List OrderPlan)
    (total : Int) (fa : Option (Nat × String)) : SubmitOutcome :=
  match failsAt fa 0 with
  | some e => orderAbort st0 st0 e
  | none =>
    match insertOrderRow st0 buyer total with
    | (st1, oid) =>
      match applyPlanItems fa oid st1 1 plans with
      | .fail stf e => orderAbort st0 stf e
      | .ok st2 k =>
        match failsAt fa k with
        | some e => orderAbort st0 st2 e
        | none =>
          match adjust_balance st2 buyer (-total) ("Order #" ++ toString oid) with
          | (st2e, .error e) => orderAbort st0 st2e e
          | (st3, .ok _) =>
            match creditSellers fa oid st3 (k+1) (sellerTotals plans) with
            | .fail stf e => orderAbort st0 stf e
            | .ok st4 k2 =>
              match failsAt fa k2 with
              | some e => orderAbort st0 st4 e
              | none =>
                match failsAt fa (k2+1) with
                | some e => orderAbort st0 (clearCartItems st4 buyer) e
                | none => ⟨clearCartItems st4 buyer, some oid, none⟩

/-- `submit_order(user_id)`: validate the cart (reads only), then run the
commit phase.  `fa` is the fault oracle for exceptions in the commit phase. -/
def submit_order (st : DBState) (uid : Nat) (fa : Option (Nat × String)) :
    SubmitOutcome :=
  let lines := cartLines st uid
  if lines.isEmpty then ⟨st, none, some "Cart is empty"⟩
  else
    match validateLines st uid lines with
    | .error e => ⟨st, none, some e⟩
    | .ok (plans, total) =>
        if get_balance st uid < total then
          ⟨st, none, some (insufficientBalanceMsg total (get_balance st uid))⟩
        else submitCommit st uid plans total fa

/-! ## `app/models/purchases.py` -/

/-- `limit_val = max(1, min(50, int(limit)))`. -/
def clampLimit (limit : Int) : Nat := (max 1 (min 50 limit)).toNat

/-- `offset_val = max(0, int(offset))`. -/
def clampOffset (offset : Int) : Nat := (max 0 offset).toNat

/-- One row of `filtered_line_items`: `orders` joined to `order_items`, to
`products`, and left-joined to `Users` for the seller name. -/
structure JoinedLine where
  order_id : Nat
  created_at : Nat
  total_cents : Int
  order_item_id : Nat
  product_id : Nat
  product_name : String
  quantity : Int
  unit_price_cents : Int
  fulfilled : Bool
  seller_id : Nat
  seller_name : Option String
deriving DecidableEq, Repr

/-- The `filtered_line_items` CTE of `get_purchases_for_user` with every
optional filter at its default `None` (so the only condition is
`o.buyer_id = :user_id`). -/
def purchasesJoin (st : DBState) (uid : Nat) : List JoinedLine :=
  (st.orders.map (fun o =>
    if o.buyer_id = uid then
      (st.order_items.filter (fun oi => oi.order_id = o.id)).filterMap (fun oi =>
        (st.products.find? (fun p => p.id = oi.product_id)).map (fun p =>
          ⟨o.id, o.created_at, o.total_cents, oi.id, oi.product_id, p.name,
           oi.quantity, oi.unit_price_cents, oi.fulfilled_at.isSome, oi.seller_id,
           (st.users.find? (fun u => u.id = oi.seller_id)).map (fun u => u.full_name)⟩))
    else [])).flatten

/-- `SELECT COUNT(DISTINCT o.id)` over the same join. -/
def totalOrdersCount (st : DBState) (uid : Nat) : Nat :=
  ((purchasesJoin st uid).map (fun r => r.order_id)).dedup.length

/-- One row of the `order_summary` CTE (`GROUP BY order_id`). -/
structure OrderSummary where
  order_id : Nat
  order_created_at : Nat
  total_cents : Int
  item_count : Nat
  all_fulfilled : Bool
deriving DecidableEq, Repr

/-- The `order_summary` group of one order id: `MAX(created_at)`,
`MAX(total_cents)`, `COUNT(order_item_id)`, `BOOL_AND(fulfilled)` (the groups
this is applied to are nonempty, so the fold bases are never reached). -/
def summaryFor (rows : List JoinedLine) (oid : Nat) : OrderSummary :=
  let grp := rows.filter (fun r => r.order_id = oid)
  { order_id := oid
    order_created_at := (grp.map (fun r => r.created_at)).foldr max 0
    total_cents := (grp.map (fun r => r.total_cents)).foldr max 0
    item_count := grp.length
    all_fulfilled := grp.all (fun r => r.fulfilled) }

/-- The `order_summary` rows, one per distinct order id of the join. -/
def orderSummaries (st : DBState) (uid : Nat) : List OrderSummary :=
  ((purchasesJoin st uid).map (fun r => r.order_id)).dedup.map
    (summaryFor (purchasesJoin st uid))

/-- `ORDER BY order_created_at DESC, order_id DESC` over the summaries. -/
def summariesSorted (st : DBState) (uid : Nat) : List OrderSummary :=
  sortBy (fun a b =>
      b.order_created_at < a.order_created_at ∨
        (b.order_created_at = a.order_created_at ∧ b.order_id ≤ a.order_id))
    (orderSummaries st uid)

/-- One nested line item as assembled by the Python row loop. -/
structure PurchaseLineItem where
  product_id : Nat
  product_name : String
  quantity : Int
  unit_price_cents : Int
  line_total_cents : Int
  fulfilled : Bool
  seller_id : Nat
  seller_name : Option String
deriving DecidableEq, Repr

/-- One order dict of the returned `orders` list. -/
structure PurchaseOrder where
  order_id : Nat
  order_created_at : Nat
  total_cents : Int
  item_count : Nat
  all_fulfilled : Bool
  line_items : List PurchaseLineItem
deriving DecidableEq, Repr

/-- The `{'orders': ..., 'total_orders': ...}` return value. -/
structure PurchasesPage where
  orders : List PurchaseOrder
  total_orders : Nat
deriving DecidableEq, Repr

def toLineItem (r : JoinedLine) : PurchaseLineItem :=
  ⟨r.product_id, r.product_name, r.quantity, r.unit_price_cents,
   r.quantity * r.unit_price_cents, r.fulfilled, r.seller_id, r.seller_name⟩

/-- `get_purchases_for_user(user_id, limit, offset)` with every optional
filter at its default: count the distinct matching orders (returning an empty
page when the count is 0), page the sorted summaries with
`LIMIT :limit OFFSET :offset`, and nest each paged order's line items
(ordered by `order_item_id`). -/
def get_purchases_for_user (st : DBState) (uid : Nat) (limit offset : Int) :
    PurchasesPage :=
  let joined := purchasesJoin st uid
  let total := totalOrdersCount st uid
  if total = 0 then ⟨[], 0⟩
  else
    let paged := ((summariesSorted st uid).drop (clampOffset offset)).take (clampLimit limit)
    ⟨paged.map (fun s =>
        ⟨s.order_id, s.order_created_at, s.total_cents, s.item_count, s.all_fulfilled,
         (sortBy (fun a b => a.order_item_id ≤ b.order_item_id)
            (joined.filter (fun r => r.order_id = s.order_id))).map toLineItem⟩),
     total⟩

/-! ## Spec-side definition (for checking the rounding claim) -/

/-- The spec's per-line snapshot, following its words (§4.3 step 3, §6):
`unit_price_cents = round(price × 100)`, "rounding, not truncation". -/
def specRoundCents (price : Rat) : Int := pyRound (price * 100)

/-! ## Derived definitions used by the theorems -/

/-- The rows appended to `order_items` by the per-item commit loop, given the
serial counter at entry. -/
def planRows (nid oid : Nat) : List OrderPlan → List OrderItemRow
  | [] => []
  | p :: ps =>
      ⟨nid, oid, p.product_id, p.seller_id, p.quantity, p.unit_price_cents, none⟩
        :: planRows (nid+1) oid ps

/-- The fault-free per-item commit loop as a pure state fold. -/
def planFold (oid : Nat) : DBState → List OrderPlan → DBState
  | st, [] => st
  | st, p :: ps => planFold oid (decrementInventory (insertItemRow st oid p) p) ps

/-- The error, if any, of `submit_order`'s validation phase (everything before
the `try` block): empty cart, first per-line failure, or insufficient balance.
This mirrors the phase-1 control flow of `submit_order` exactly. -/
def validationOutcome (st : DBState) (uid : Nat) : Option String :=
  if (cartLines st uid).isEmpty then some "Cart is empty"
  else
    match validateLines st uid (cartLines st uid) with
    | .error e => some e
    | .ok (_, total) =>
        if get_balance st uid < total then
          some (insufficientBalanceMsg total (get_balance st uid))
        else none

/-- Structural well-formedness the application code maintains: inventory rows
have unique `(user_id, product_id)` keys, cart items have unique
`(cart_id, product_id)` keys, and each user has at most one cart. -/
def StateWF (st : DBState) : Prop :=
  st.inventory.Pairwise (fun a b => ¬ (a.user_id = b.user_id ∧ a.product_id = b.product_id)) ∧
  st.cart_items.Pairwise (fun a b => ¬ (a.cart_id = b.cart_id ∧ a.product_id = b.product_id)) ∧
  st.carts.Pairwise (fun a b => ¬ a.user_id = b.user_id)

instance (st : DBState) : Decidable (StateWF st) := by
  unfold StateWF; infer_instance

/-- The inventory invariant: every stored quantity is nonnegative. -/
def invNonneg (st : DBState) : Prop := ∀ r ∈ st.inventory, 0 ≤ r.quantity

instance (st : DBState) : Decidable (invNonneg st) := by
  unfold invNonneg; infer_instance

/-- The operations the inventory-invariant claim ranges over. -/
inductive InvOp where
  | add (uid pid : Nat) (qty : Int)
  | upd (uid pid : Nat) (newq : Int)
  | checkout (uid : Nat) (fa : Option (Nat × String))
deriving DecidableEq, Repr

def applyInvOp (st : DBState) : InvOp → DBState
  | .add u p q => add_product_to_inventory st u p q
  | .upd u p q => (update_product_quantity st u p q).1
  | .checkout u fa => (submit_order st u fa).state

/-- Nonnegativity of the externally supplied quantities of an operation. -/
def invOpOK : InvOp → Prop
  | .add _ _ q => 0 ≤ q
  | .upd _ _ q => 0 ≤ q
  | .checkout _ _ => True

instance (op : InvOp) : Decidable (invOpOK op) := by
  cases op <;> (unfold invOpOK; infer_instance)

/-- Mark every catalog product unavailable, leaving all else unchanged. -/
def setAllUnavailable (st : DBState) : DBState :=
  { st with products := st.products.map (fun p => { p with available := some false }) }

/-- Apply a state transformation to the state carried by a commit-phase
result. -/
def mapCommitRes (f : DBState → DBState) : CommitRes → CommitRes
  | .ok st k => .ok (f st) k
  | .fail st e => .fail (f st) e


/-- The aggregate earnings recorded for seller `s` in a `seller_totals` dict
(0 when absent). -/
def lookupEarnings (acc : List (Nat × Int)) (s : Nat) : Int :=
  match acc.find? (fun x => x.1 = s) with
  | some x => x.2
  | none => 0

/-- The conservation/ledger shape of a successful fault-free checkout of
buyer `uid` producing order `oid`: exactly one order row is added, carrying a
total `t`; the buyer's balance drops by exactly `t`; `t` is the sum of the
new order lines' `quantity × unit_price_cents`; and there is a per-seller
credit list (the `seller_totals` aggregation) with pairwise-distinct sellers
covering exactly the sellers of the new lines, summing to `t`, each seller's
balance rising by exactly their aggregate; the ledger gains one debit row
(when `t ≠ 0`) and one credit row per seller with nonzero aggregate —
aggregated per seller, not per line. -/
def ConservationSpec (st : DBState) (uid oid : Nat) : Prop :=
  ∃ (t : Int) (credits : List (Nat × Int)),
    (submit_order st uid none).state.orders =
      st.orders ++ [⟨oid, uid, t, false, st.clock⟩] ∧
    get_balance (submit_order st uid none).state uid = get_balance st uid - t ∧
    (∀ r ∈ (submit_order st uid none).state.order_items.drop st.order_items.length,
      r.order_id = oid) ∧
    t = (((submit_order st uid none).state.order_items.drop
          st.order_items.length).map
          (fun r => r.unit_price_cents * r.quantity)).sum ∧
    (credits.map Prod.fst).Nodup ∧
    (∀ s, s ∈ credits.map Prod.fst ↔
      s ∈ ((submit_order st uid none).state.order_items.drop
            st.order_items.length).map (fun r => r.seller_id)) ∧
    (credits.map Prod.snd).sum = t ∧
    (∀ c ∈ credits, ¬ c.1 = uid ∧
      get_balance (submit_order st uid none).state c.1 =
        get_balance st c.1 + c.2 ∧
      c.2 = ((((submit_order st uid none).state.order_items.drop
                st.order_items.length).filter
                (fun r => r.seller_id = c.1)).map
              (fun r => r.unit_price_cents * r.quantity)).sum) ∧
    (submit_order st uid none).state.balance_tx = st.balance_tx
      ++ (if t = 0 then [] else [⟨uid, -t, "Order #" ++ toString oid⟩])
      ++ credits.filterMap (fun c => if c.2 = 0 then none
            else some ⟨c.1, c.2, "Order #" ++ toString oid ++ " sale"⟩)

/-! ## Concrete example states -/

/-- Scenario A of the spec: buyer 1 holds 500 cents, seller 2 stocks 10 units
of product 10 (price $5.00), buyer 1's cart holds one unit of product 10. -/
def exA : DBState :=
  { users := [⟨1, "Ada"⟩, ⟨2, "Bob"⟩]
    products := [⟨10, "Gadget", some 5, some true⟩]
    inventory := [⟨2, 10, 10⟩]
    carts := [⟨1, 1⟩]
    cart_items := [⟨1, 1, 10, 1⟩]
    balances := [⟨1, 500⟩, ⟨2, 0⟩]
    balance_tx := []
    orders := []
    order_items := []
    next_cart_id := 2
    next_cart_item_id := 2
    next_order_id := 1
    next_order_item_id := 1
    clock := 0 }

/-- Like `exA` but the product costs 0.1 cents (price 1/1000 dollars), so its
snapshot price truncates to 0 cents. -/
def exZero : DBState :=
  { exA with products := [⟨10, "Gadget", some (1/1000), some true⟩] }

/-- Buyer 1 wants 5 units of product 10; buyer 1 themselves stock 10 units but
the only other holder (user 3) stocks just 3: no eligible seller. -/
def exNoSeller : DBState :=
  { exA with
      inventory := [⟨1, 10, 10⟩, ⟨3, 10, 3⟩]
      cart_items := [⟨1, 1, 10, 5⟩] }

/-- Scenario B of the spec: same cart as `exA` but the buyer holds only 100
cents, so checkout fails the balance check. -/
def exPoor : DBState :=
  { exA with balances := [⟨1, 100⟩, ⟨2, 0⟩] }

/-- Seller 1 stocks product 10 and an unfulfilled order line (order 1) for
that `(seller, product)` pair is outstanding. -/
def exOutstanding : DBState :=
  { users := [⟨1, "Ada"⟩, ⟨2, "Bob"⟩]
    products := [⟨10, "Gadget", some 5, some true⟩]
    inventory := [⟨1, 10, 5⟩]
    carts := []
    cart_items := []
    balances := []
    balance_tx := []
    orders := [⟨1, 2, 500, false, 0⟩]
    order_items := [⟨1, 1, 10, 1, 1, 500, none⟩]
    next_cart_id := 1
    next_cart_item_id := 1
    next_order_id := 2
    next_order_item_id := 2
    clock := 1 }

/-- Buyer 7 with exactly 5 one-line orders (products present in the catalog). -/
def exFive : DBState :=
  { users := [⟨7, "Eve"⟩, ⟨2, "Bob"⟩]
    products := [⟨10, "Gadget", some 5, some true⟩]
    inventory := []
    carts := []
    cart_items := []
    balances := []
    balance_tx := []
    orders := [⟨1, 7, 500, false, 1⟩, ⟨2, 7, 500, false, 2⟩, ⟨3, 7, 500, false, 3⟩,
               ⟨4, 7, 500, false, 4⟩, ⟨5, 7, 500, false, 5⟩]
    order_items := [⟨1, 1, 10, 2, 1, 500, none⟩, ⟨2, 2, 10, 2, 1, 500, none⟩,
                    ⟨3, 3, 10, 2, 1, 500, none⟩, ⟨4, 4, 10, 2, 1, 500, none⟩,
                    ⟨5, 5, 10, 2, 1, 500, none⟩]
    next_cart_id := 1
    next_cart_item_id := 1
    next_order_id := 6
    next_order_item_id := 6
    clock := 6 }

/-- `exA` with the product additionally marked unavailable. -/
def exAUnavailable : DBState :=
  { exA with products := [⟨10, "Gadget", some 5, some false⟩] }

/-- Scenario D of the spec: user 1 holds only 30 cents. -/
def exD : DBState :=
  { exA with balances := [⟨1, 30⟩] }

/-! ## Theorems -/

section Theorems

/- Batteries marks the `Rat` arithmetic operations `@[irreducible]`, which
blocks `decide`-style evaluation; re-allow unfolding them locally. -/
attribute [local semireducible] Rat.mul Rat.sub Rat.add Rat.inv

/-- C1: in `exA` (buyer 1, one $5.00 cart line, seller 2), an exception at the
cart-clearing step of the commit phase (step 5) makes `submit_order` return
`(None, "Error processing order: ...")` and rolls back the order row, order
line, inventory decrement and cart delete — but the buyer debit of 500 cents
and the seller credit of 500 cents, committed by `User.adjust_balance` in its
own transactions, survive.  This refutes the claim that the entire state is as
before the call. -/
theorem c1_commit_exception_keeps_balance_writes :
    submit_order exA 1 (some (5, "db error")) =
      ⟨{ exA with
          balances := [⟨1, 0⟩, ⟨2, 500⟩]
          balance_tx := [⟨1, -500, "Order #1"⟩, ⟨2, 500, "Order #1 sale"⟩] },
       none, some "Error processing order: db error"⟩ ∧
    get_balance exA 1 = 500 := by
  decide

/-- C5: `adjust_balance` with a negative delta whose magnitude exceeds the
current balance fails with the insufficient-funds error and leaves the state
untouched: the balance is unchanged and no `balance_tx` ledger row is
written (the whole transaction, including the ensure-row insert, rolls back). -/
theorem c5_adjust_balance_insufficient (st : DBState) (uid : Nat) (delta : Int)
    (note : String) (hneg : delta < 0)
    (hover : get_balance st uid + delta < 0) :
    adjust_balance st uid delta note = (st, .error "Insufficient funds") := by
  have hdz : ¬ delta = 0 := by omega
  simp [adjust_balance, hdz, hover]

/-- C5 witness, Scenario D of the spec: balance 30, `adjust_balance(1, -50)`. -/
theorem c5_witness :
    (-50 : Int) < 0 ∧ get_balance exD 1 + (-50) < 0 ∧
    adjust_balance exD 1 (-50) "withdraw" = (exD, .error "Insufficient funds") :=
  ⟨by decide, by decide,
   c5_adjust_balance_insufficient exD 1 (-50) "withdraw" (by decide) (by decide)⟩

/-- C7 counterexample: at catalog price 1.006 the snapshot used by checkout,
`int(price * 100)` (truncation toward zero), yields 100 cents, while the
spec's `round(price × 100)` yields 101 — the claim's equation fails. -/
theorem c7_counterexample :
    unitPriceCents (1006/1000) = 100 ∧ specRoundCents (1006/1000) = 101 ∧
    ¬ unitPriceCents (1006/1000) = specRoundCents (1006/1000) := by
  decide

/-- C7 amended: the snapshot is truncation toward zero of `price × 100`, which
agrees with the spec's rounding exactly when `price × 100` is an integer
(e.g. any price with at most two decimal places, read exactly). -/
theorem c7_trunc_eq_round_on_whole_cents (price : Rat) (n : Int)
    (h : price * 100 = (n : Rat)) :
    unitPriceCents price = specRoundCents price ∧ unitPriceCents price = n := by
  have htr : unitPriceCents price = n := by
    rw [unitPriceCents, pyTrunc, h]
    simp only [Rat.num_intCast, Rat.den_intCast, Nat.div_one, Int.natCast_natAbs]
    exact Int.sign_mul_abs n
  have hfl : ratFloor ((n : Rat)) = n := by
    rw [ratFloor]
    simp [Int.fdiv_one]
  have hrd : specRoundCents price = n := by
    rw [specRoundCents, pyRound, h]
    simp only [hfl, sub_self]
    norm_num
  exact ⟨htr.trans hrd.symm, htr⟩

/-- C7 witness: a two-decimal price ($5.99) where truncation and rounding
agree at 599 cents. -/
theorem c7_witness :
    (599/100 : Rat) * 100 = ((599 : Int) : Rat) ∧
    unitPriceCents (599/100) = specRoundCents (599/100) ∧
    unitPriceCents (599/100) = 599 :=
  ⟨by norm_num,
   (c7_trunc_eq_round_on_whole_cents (599/100) 599 (by norm_num)).1,
   (c7_trunc_eq_round_on_whole_cents (599/100) 599 (by norm_num)).2⟩

/-- C8: with seller 1 stocking product 10 and an unfulfilled order line for
that `(seller, product)` pair outstanding, `remove_product_from_inventory`
nevertheless deletes the inventory row and reports success — there is no
outstanding-orders check anywhere in the function. -/
theorem c8_remove_ignores_outstanding_orders :
    hasOutstandingLine exOutstanding 1 10 ∧
    remove_product_from_inventory exOutstanding 1 10 =
      ({ exOutstanding with inventory := [] }, true) := by
  decide

theorem length_insertSortedBy (le : α → α → Bool) (a : α) :
    ∀ l : List α, (insertSortedBy le a l).length = l.length + 1
  | [] => rfl
  | b :: bs => by
      rw [insertSortedBy]
      split
      · simp
      · simp [length_insertSortedBy le a bs]

theorem length_sortBy (le : α → α → Bool) :
    ∀ l : List α, (sortBy le l).length = l.length
  | [] => rfl
  | a :: as => by
      rw [sortBy, length_insertSortedBy, length_sortBy le as]
      simp

theorem length_summariesSorted (st : DBState) (uid : Nat) :
    (summariesSorted st uid).length = totalOrdersCount st uid := by
  rw [summariesSorted, length_sortBy, orderSummaries, List.length_map,
    totalOrdersCount]

/-- C9: a purchases query whose offset is at or beyond the buyer's total
order count returns an empty `orders` list together with the true total
count, rather than an error. -/
theorem c9_offset_beyond_returns_empty (st : DBState) (uid : Nat)
    (limit offset : Int) (h : (totalOrdersCount st uid : Int) ≤ offset) :
    get_purchases_for_user st uid limit offset =
      ⟨[], totalOrdersCount st uid⟩ := by
  simp only [get_purchases_for_user]
  by_cases h0 : totalOrdersCount st uid = 0
  · rw [if_pos h0, h0]
  · rw [if_neg h0]
    have hoff : (0 : Int) ≤ offset :=
      le_trans (Int.natCast_nonneg _) h
    have hlen : (summariesSorted st uid).length ≤ clampOffset offset := by
      rw [length_summariesSorted, clampOffset, max_eq_right hoff]
      omega
    rw [List.drop_eq_nil_of_le hlen]
    simp

/-- C9 witness, Scenario E: buyer 7 with 5 orders, `limit=10, offset=20`. -/
theorem c9_witness :
    totalOrdersCount exFive 7 = 5 ∧
    (totalOrdersCount exFive 7 : Int) ≤ 20 ∧
    get_purchases_for_user exFive 7 10 20 = ⟨[], totalOrdersCount exFive 7⟩ :=
  ⟨by decide, by decide,
   c9_offset_beyond_returns_empty exFive 7 10 20 (by decide)⟩

/-- Whenever phase 1 of `submit_order` fails, the call returns `(None, that
error)` with the state untouched (the phase performs reads only). -/
theorem submit_order_validation_eq (st : DBState) (uid : Nat)
    (fa : Option (Nat × String)) (m : String)
    (h : validationOutcome st uid = some m) :
    submit_order st uid fa = ⟨st, none, some m⟩ := by
  simp only [validationOutcome] at h
  simp only [submit_order]
  split at h
  · next hEmpty =>
      rw [if_pos hEmpty]
      cases h
      rfl
  · next hEmpty =>
      rw [if_neg hEmpty]
      split at h
      · next e heq =>
          cases h
          rfl
      · next plans total heq =>
          split at h
          · next hbal =>
              rw [if_pos hbal]
              cases h
              rfl
          · exact absurd h (by simp)

/-- C4: whenever the validation phase of `submit_order` fails (empty cart,
missing price, no eligible seller, or insufficient balance), the call returns
`(None, that descriptive error string)` and the state is completely
unchanged — the validation phase performs reads only. -/
theorem c4_validation_failure_unchanged (st : DBState) (uid : Nat)
    (fa : Option (Nat × String)) (m : String)
    (h : validationOutcome st uid = some m) :
    submit_order st uid fa = ⟨st, none, some m⟩ :=
  submit_order_validation_eq st uid fa m h

/-- C4 witness, Scenario B: buyer 1 holds 100 cents against a 500-cent cart;
checkout fails the balance check and leaves the state untouched. -/
theorem c4_witness :
    validationOutcome exPoor 1 = some (insufficientBalanceMsg 500 100) ∧
    submit_order exPoor 1 none = ⟨exPoor, none, some (insufficientBalanceMsg 500 100)⟩ :=
  ⟨by decide,
   c4_validation_failure_unchanged exPoor 1 none (insufficientBalanceMsg 500 100) (by decide)⟩

theorem find?_user_map_update (u w : Nat) (v : Int) (bs : List BalanceRow) :
    (bs.map (fun b => if b.user_id = u then { b with balance_cents := v } else b)).find?
        (fun b => b.user_id = w) =
      (bs.find? (fun b => b.user_id = w)).map
        (fun b => if b.user_id = u then { b with balance_cents := v } else b) := by
  rw [List.find?_map]
  congr 1
  congr 1
  funext b
  by_cases hbu : b.user_id = u <;> simp [hbu, Function.comp]

theorem getBalanceList_map_update_eval (u w : Nat) (v : Int) (bs : List BalanceRow) :
    getBalanceList (bs.map (fun b =>
        if b.user_id = u then { b with balance_cents := v } else b)) w =
      (match bs.find? (fun b => b.user_id = w) with
       | some b => if b.user_id = u then v else b.balance_cents
       | none => 0) := by
  rw [getBalanceList, find?_user_map_update]
  cases bs.find? (fun b => b.user_id = w) with
  | none => rfl
  | some b => by_cases hbu : b.user_id = u <;> simp [hbu]

theorem getBalanceList_setBalance_self (bs : List BalanceRow) (u : Nat) (v : Int) :
    getBalanceList (setBalance bs u v) u = v := by
  rw [setBalance]
  split
  · next hany =>
      rw [getBalanceList_map_update_eval]
      obtain ⟨b, hmem, hb⟩ := List.any_eq_true.mp hany
      have hsome : ∃ c, bs.find? (fun b => b.user_id = u) = some c := by
        rw [← Option.isSome_iff_exists, List.find?_isSome]
        exact ⟨b, hmem, hb⟩
      obtain ⟨c, hc⟩ := hsome
      have hcu : c.user_id = u := by
        simpa using List.find?_some hc
      rw [hc]
      simp [hcu]
  · next hany =>
      rw [getBalanceList, List.find?_append]
      have hnone : bs.find? (fun b => b.user_id = u) = none := by
        rw [List.find?_eq_none]
        intro b hmem hb
        exact hany (List.any_eq_true.mpr ⟨b, hmem, hb⟩)
      rw [hnone]
      simp [List.find?_cons]

theorem getBalanceList_setBalance_other (bs : List BalanceRow) (u w : Nat)
    (v : Int) (hw : ¬ w = u) :
    getBalanceList (setBalance bs u v) w = getBalanceList bs w := by
  rw [setBalance]
  split
  · rw [getBalanceList_map_update_eval, getBalanceList]
    cases hf : bs.find? (fun b => b.user_id = w) with
    | none => rfl
    | some b =>
        have hbw : b.user_id = w := by simpa using List.find?_some hf
        have hbu : ¬ b.user_id = u := by rw [hbw]; exact hw
        simp [hbu]
  · rw [getBalanceList, getBalanceList, List.find?_append]
    cases hf : bs.find? (fun b => b.user_id = w) with
    | none =>
        have huw : ¬ (u = w) := fun hc => hw hc.symm
        simp [List.find?_cons, huw]
    | some b => rfl

/-- Everything `adjust_balance` guarantees when it succeeds. -/
theorem adjust_balance_ok_spec (st : DBState) (u : Nat) (d : Int) (note : String)
    (st' : DBState) (v : Int)
    (h : adjust_balance st u d note = (st', .ok v)) :
    get_balance st' u = get_balance st u + d ∧
    (∀ w, ¬ w = u → get_balance st' w = get_balance st w) ∧
    st'.balance_tx = st.balance_tx ++ (if d = 0 then [] else [⟨u, d, note⟩]) ∧
    st'.orders = st.orders ∧ st'.order_items = st.order_items ∧
    st'.inventory = st.inventory ∧ st'.carts = st.carts ∧
    st'.cart_items = st.cart_items ∧ st'.products = st.products ∧
    st'.users = st.users ∧
    st'.next_cart_id = st.next_cart_id ∧
    st'.next_cart_item_id = st.next_cart_item_id ∧
    st'.next_order_id = st.next_order_id ∧
    st'.next_order_item_id = st.next_order_item_id ∧
    st'.clock = st.clock ∧
    (¬ d = 0 → 0 ≤ get_balance st u + d) := by
  rw [adjust_balance] at h
  by_cases hd : d = 0
  · rw [if_pos hd] at h
    rw [Prod.mk.injEq] at h
    obtain ⟨h1, _⟩ := h
    subst hd
    subst h1
    refine ⟨by simp, fun w _ => rfl, by simp, rfl, rfl, rfl, rfl, rfl, rfl, rfl,
      rfl, rfl, rfl, rfl, rfl, fun hdd => absurd rfl hdd⟩
  · rw [if_neg hd] at h
    by_cases hneg : get_balance st u + d < 0
    · rw [if_pos hneg] at h
      simp at h
    · rw [if_neg hneg] at h
      rw [Prod.mk.injEq] at h
      obtain ⟨h1, _⟩ := h
      subst h1
      refine ⟨?_, ?_, by simp [hd], rfl, rfl, rfl, rfl, rfl, rfl, rfl, rfl, rfl,
        rfl, rfl, rfl, fun _ => by omega⟩
      · exact getBalanceList_setBalance_self st.balances u _
      · exact fun w hw => getBalanceList_setBalance_other st.balances u w _ hw

/-- `adjust_balance` leaves the state untouched when it fails. -/
theorem adjust_balance_error_spec (st : DBState) (u : Nat) (d : Int)
    (note : String) (st' : DBState) (e : String)
    (h : adjust_balance st u d note = (st', .error e)) :
    st' = st ∧ e = "Insufficient funds" := by
  rw [adjust_balance] at h
  by_cases hd : d = 0
  · rw [if_pos hd] at h; simp at h
  · rw [if_neg hd] at h
    by_cases hneg : get_balance st u + d < 0
    · rw [if_pos hneg] at h
      cases h
      exact ⟨rfl, rfl⟩
    · rw [if_neg hneg] at h; simp at h

@[simp] theorem failsAt_none (k : Nat) : failsAt none k = none := rfl

theorem applyPlanItems_none (oid : Nat) :
    ∀ (ps : List OrderPlan) (st : DBState) (k : Nat),
    applyPlanItems none oid st k ps =
      .ok (planFold oid st ps) (k + 2 * ps.length)
  | [], st, k => by simp [applyPlanItems, planFold]
  | p :: ps, st, k => by
      rw [applyPlanItems, planFold]
      simp only [failsAt_none]
      rw [applyPlanItems_none oid ps _ (k + 2)]
      congr 1
      simp [Nat.mul_add]
      omega

theorem planFold_fields (oid : Nat) :
    ∀ (ps : List OrderPlan) (st : DBState),
    (planFold oid st ps).balances = st.balances ∧
    (planFold oid st ps).balance_tx = st.balance_tx ∧
    (planFold oid st ps).carts = st.carts ∧
    (planFold oid st ps).cart_items = st.cart_items ∧
    (planFold oid st ps).products = st.products ∧
    (planFold oid st ps).users = st.users ∧
    (planFold oid st ps).orders = st.orders ∧
    (planFold oid st ps).next_cart_id = st.next_cart_id ∧
    (planFold oid st ps).next_cart_item_id = st.next_cart_item_id ∧
    (planFold oid st ps).next_order_id = st.next_order_id ∧
    (planFold oid st ps).clock = st.clock ∧
    (planFold oid st ps).order_items =
      st.order_items ++ planRows st.next_order_item_id oid ps
  | [], st => by simp [planFold, planRows]
  | p :: ps, st => by
      obtain ⟨h1, h2, h3, h4, h5, h6, h7, h8, h9, h10, h11, h12⟩ :=
        planFold_fields oid ps (decrementInventory (insertItemRow st oid p) p)
      rw [planFold, planRows]
      refine ⟨h1, h2, h3, h4, h5, h6, h7, h8, h9, h10, h11, ?_⟩
      rw [h12]
      simp [decrementInventory, insertItemRow, List.append_assoc]

theorem creditSellers_none_ok (oid : Nat) :
    ∀ (l : List (Nat × Int)) (st : DBState) (k : Nat) (st' : DBState) (k' : Nat),
    creditSellers none oid st k l = .ok st' k' →
    (l.map Prod.fst).Nodup →
    (∀ c ∈ l, get_balance st' c.1 = get_balance st c.1 + c.2) ∧
    (∀ w, w ∉ l.map Prod.fst → get_balance st' w = get_balance st w) ∧
    st'.balance_tx = st.balance_tx ++ l.filterMap (fun c =>
      if c.2 = 0 then none
      else some ⟨c.1, c.2, "Order #" ++ toString oid ++ " sale"⟩) ∧
    st'.orders = st.orders ∧ st'.order_items = st.order_items ∧
    st'.inventory = st.inventory ∧ st'.carts = st.carts ∧
    st'.cart_items = st.cart_items ∧ st'.products = st.products ∧
    st'.users = st.users ∧
    st'.next_cart_id = st.next_cart_id ∧
    st'.next_cart_item_id = st.next_cart_item_id ∧
    st'.next_order_id = st.next_order_id ∧
    st'.next_order_item_id = st.next_order_item_id ∧
    st'.clock = st.clock
  | [], st, k, st', k', h, hnd => by
      rw [creditSellers] at h
      cases h
      simp
  | (s, e) :: rest, st, k, st', k', h, hnd => by
      rw [creditSellers] at h
      simp only [failsAt_none] at h
      rcases hadj : adjust_balance st s e ("Order #" ++ toString oid ++ " sale")
        with ⟨st1, ev⟩
      rw [hadj] at h
      cases ev with
      | error e2 => cases h
      | ok v =>
          obtain ⟨ha1, ha2, ha3, ha4, ha5, ha6, ha7, ha8, ha9, ha10, ha11, ha12,
            ha13, ha14, ha15, _⟩ := adjust_balance_ok_spec st s e _ st1 v hadj
          have hnd' : (s :: rest.map Prod.fst).Nodup := hnd
          have hnd2 := List.nodup_cons.mp hnd'
          obtain ⟨ih1, ih2, ih3, ih4, ih5, ih6, ih7, ih8, ih9, ih10, ih11, ih12,
            ih13, ih14, ih15⟩ :=
            creditSellers_none_ok oid rest st1 (k+1) st' k' h hnd2.2
          refine ⟨?_, ?_, ?_, ih4.trans ha4, ih5.trans ha5, ih6.trans ha6,
            ih7.trans ha7, ih8.trans ha8, ih9.trans ha9, ih10.trans ha10,
            ih11.trans ha11, ih12.trans ha12, ih13.trans ha13, ih14.trans ha14,
            ih15.trans ha15⟩
          · intro c hc
            rcases List.mem_cons.mp hc with hc | hc
            · subst hc
              rw [ih2 s hnd2.1, ha1]
            · have hc1 : ¬ c.1 = s := by
                intro hceq
                exact hnd2.1 (hceq ▸ List.mem_map_of_mem Prod.fst hc)
              rw [ih1 c hc, ha2 c.1 hc1]
          · intro w hw
            simp only [List.map_cons, List.mem_cons, not_or] at hw
            rw [ih2 w hw.2, ha2 w hw.1]
          · rw [ih3, ha3]
            by_cases he : e = 0 <;>
              simp [he, List.filterMap_cons, List.append_assoc]

theorem maxByQty_mem : ∀ (l : List InventoryRow) (m : InventoryRow),
    maxByQty l = some m → m ∈ l
  | [], m, h => by simp [maxByQty] at h
  | r :: rs, m, h => by
      rw [maxByQty] at h
      split at h
      · cases h; exact .head _
      · next m2 hm =>
          split at h
          · cases h; exact .tail _ (maxByQty_mem rs _ hm)
          · cases h; exact .head _

theorem maxByQty_cons_ne_none (r : InventoryRow) (rs : List InventoryRow) :
    ¬ maxByQty (r :: rs) = none := by
  rw [maxByQty]
  split
  · simp
  · split <;> simp

theorem maxByQty_max : ∀ (l : List InventoryRow) (m : InventoryRow),
    maxByQty l = some m → ∀ x ∈ l, x.quantity ≤ m.quantity
  | [], m, h => by simp [maxByQty] at h
  | r :: rs, m, h => by
      rw [maxByQty] at h
      split at h
      · next hm =>
          cases h
          intro x hx
          rcases List.mem_cons.mp hx with hx | hx
          · subst hx; exact le_refl _
          · cases rs with
            | nil => cases hx
            | cons a as => exact absurd hm (maxByQty_cons_ne_none a as)
      · next m2 hm =>
          have hx2 := maxByQty_max rs m2 hm
          split at h
          · next hq =>
              cases h
              intro x hx
              rcases List.mem_cons.mp hx with hx | hx
              · subst hx; omega
              · exact hx2 x hx
          · next hq =>
              cases h
              intro x hx
              rcases List.mem_cons.mp hx with hx | hx
              · subst hx; exact le_refl _
              · have := hx2 x hx; omega

theorem findSeller_spec (st : DBState) (pid : Nat) (qty : Int) (buyer : Nat)
    (r : InventoryRow) (h : findSeller st pid qty buyer = some r) :
    r ∈ st.inventory ∧ r.product_id = pid ∧ qty ≤ r.quantity ∧
    ¬ r.user_id = buyer ∧
    ∀ r2 ∈ st.inventory, r2.product_id = pid → ¬ r2.user_id = buyer →
      qty ≤ r2.quantity → r2.quantity ≤ r.quantity := by
  rw [findSeller] at h
  have hmem := maxByQty_mem _ _ h
  have hmax := maxByQty_max _ _ h
  rw [List.mem_filter] at hmem
  obtain ⟨hmem, hprops⟩ := hmem
  simp only [Bool.and_eq_true, decide_eq_true_eq] at hprops
  refine ⟨hmem, hprops.1, hprops.2.1, hprops.2.2, ?_⟩
  intro r2 h2 hp hb hq
  exact hmax r2 (List.mem_filter.mpr ⟨h2, by simp [hp, hb, hq]⟩)

theorem findSeller_none (st : DBState) (pid : Nat) (qty : Int) (buyer : Nat)
    (h : findSeller st pid qty buyer = none) :
    ∀ r ∈ st.inventory, r.product_id = pid → ¬ r.user_id = buyer →
      ¬ qty ≤ r.quantity := by
  rw [findSeller] at h
  intro r hr hp hb hq
  have hmem : r ∈ st.inventory.filter (fun r =>
      r.product_id = pid ∧ qty ≤ r.quantity ∧ ¬ r.user_id = buyer) :=
    List.mem_filter.mpr ⟨hr, by simp [hp, hb, hq]⟩
  cases hl : st.inventory.filter (fun r =>
      r.product_id = pid ∧ qty ≤ r.quantity ∧ ¬ r.user_id = buyer) with
  | nil => rw [hl] at hmem; cases hmem
  | cons a as => rw [hl] at h; exact maxByQty_cons_ne_none a as h

theorem validateLines_ok_spec (st : DBState) (buyer : Nat) :
    ∀ (lines : List CartLine) (plans : List OrderPlan) (total : Int),
    validateLines st buyer lines = .ok (plans, total) →
    total = (plans.map (fun p => p.unit_price_cents * p.quantity)).sum ∧
    plans.map (fun p => p.product_id) = lines.map (fun l => l.product_id) ∧
    (∀ p ∈ plans, ¬ p.seller_id = buyer) ∧
    ∀ p ∈ plans, ∃ r ∈ st.inventory,
      r.user_id = p.seller_id ∧ r.product_id = p.product_id ∧
      p.quantity ≤ r.quantity ∧
      (∀ r2 ∈ st.inventory, r2.product_id = p.product_id →
        ¬ r2.user_id = buyer → p.quantity ≤ r2.quantity →
        r2.quantity ≤ r.quantity)
  | [], plans, total, h => by
      rw [validateLines] at h
      cases h
      simp
  | line :: rest, plans, total, h => by
      rw [validateLines] at h
      cases hp : line.price with
      | none => rw [hp] at h; cases h
      | some price =>
          rw [hp] at h
          cases hs : findSeller st line.product_id line.quantity buyer with
          | none => rw [hs] at h; cases h
          | some srow =>
              rw [hs] at h
              cases hrest : validateLines st buyer rest with
              | error e => rw [hrest] at h; cases h
              | ok pr =>
                  rcases pr with ⟨plans0, total0⟩
                  rw [hrest] at h
                  cases h
                  obtain ⟨ih1, ih2, ih3, ih4⟩ :=
                    validateLines_ok_spec st buyer rest plans0 total0 hrest
                  obtain ⟨hfm, hfp, hfq, hfb, hfmax⟩ :=
                    findSeller_spec st line.product_id line.quantity buyer srow hs
                  refine ⟨?_, ?_, ?_, ?_⟩
                  · simp [ih1]
                  · simp [ih2]
                  · intro p hp2
                    rcases List.mem_cons.mp hp2 with hp2 | hp2
                    · subst hp2; exact hfb
                    · exact ih3 p hp2
                  · intro p hp2
                    rcases List.mem_cons.mp hp2 with hp2 | hp2
                    · subst hp2
                      exact ⟨srow, hfm, rfl, hfp.symm ▸ rfl, hfq, by
                        intro r2 h2 hpp hbb hqq
                        exact hfmax r2 h2 (by simpa using hpp) hbb hqq⟩
                    · exact ih4 p hp2

theorem find?_fst_map_update (s t : Nat) (e : Int) (acc : List (Nat × Int)) :
    (acc.map (fun x => if x.1 = s then (x.1, x.2 + e) else x)).find?
        (fun x => x.1 = t) =
      (acc.find? (fun x => x.1 = t)).map
        (fun x => if x.1 = s then (x.1, x.2 + e) else x) := by
  rw [List.find?_map]
  congr 1
  congr 1
  funext x
  by_cases hx : x.1 = s <;> simp [hx, Function.comp]

theorem lookupEarnings_addEarnings (acc : List (Nat × Int)) (s t : Nat) (e : Int) :
    lookupEarnings (addEarnings acc s e) t =
      if t = s then lookupEarnings acc t + e else lookupEarnings acc t := by
  rw [addEarnings]
  split
  · next hany =>
      rw [lookupEarnings, find?_fst_map_update, lookupEarnings]
      by_cases hts : t = s
      · subst hts
        obtain ⟨x, hmem, hx⟩ := List.any_eq_true.mp hany
        have hsome : ∃ c, acc.find? (fun x => x.1 = t) = some c := by
          rw [← Option.isSome_iff_exists, List.find?_isSome]
          exact ⟨x, hmem, hx⟩
        obtain ⟨c, hc⟩ := hsome
        have hct : c.1 = t := by simpa using List.find?_some hc
        rw [hc]
        simp [hct]
      · cases hf : acc.find? (fun x => x.1 = t) with
        | none => simp [hts]
        | some c =>
            have hct : c.1 = t := by simpa using List.find?_some hf
            have hcs : ¬ c.1 = s := by rw [hct]; exact hts
            simp [hcs, hts]
  · next hany =>
      rw [lookupEarnings, lookupEarnings, List.find?_append]
      by_cases hts : t = s
      · subst hts
        have hnone : acc.find? (fun x => x.1 = t) = none := by
          rw [List.find?_eq_none]
          intro x hmem hx
          exact hany (List.any_eq_true.mpr ⟨x, hmem, hx⟩)
        rw [hnone]
        simp [List.find?_cons, hnone, lookupEarnings]
      · cases hf : acc.find? (fun x => x.1 = t) with
        | none =>
            have hst : ¬ (s = t) := fun hc => hts hc.symm
            simp [List.find?_cons, hst, hts]
        | some c => simp [hts]

theorem addEarnings_fst (acc : List (Nat × Int)) (s : Nat) (e : Int) :
    (addEarnings acc s e).map Prod.fst =
      if acc.any (fun x => x.1 = s) then acc.map Prod.fst
      else acc.map Prod.fst ++ [s] := by
  rw [addEarnings]
  split
  · next hany =>
      rw [List.map_map]
      have hf : ((Prod.fst : Nat × Int → Nat) ∘
          fun x => if x.1 = s then (x.1, x.2 + e) else x) = Prod.fst := by
        funext x
        by_cases hx : x.1 = s <;> simp [hx, Function.comp]
      rw [hf]
  · simp

theorem addEarnings_fst_nodup (acc : List (Nat × Int)) (s : Nat) (e : Int)
    (h : (acc.map Prod.fst).Nodup) :
    ((addEarnings acc s e).map Prod.fst).Nodup := by
  rw [addEarnings_fst]
  split
  · exact h
  · next hany =>
      have hs : s ∉ acc.map Prod.fst := by
        intro hmem
        obtain ⟨x, hxmem, hx⟩ := List.mem_map.mp hmem
        exact hany (List.any_eq_true.mpr ⟨x, hxmem, by simpa using hx⟩)
      simp [List.nodup_append, h, hs]

theorem addEarnings_fst_mem (acc : List (Nat × Int)) (s : Nat) (e : Int) (t : Nat) :
    t ∈ (addEarnings acc s e).map Prod.fst ↔ t ∈ acc.map Prod.fst ∨ t = s := by
  rw [addEarnings_fst]
  split
  · next hany =>
      constructor
      · exact Or.inl
      · rintro (h | h)
        · exact h
        · subst h
          obtain ⟨x, hmem, hx⟩ := List.any_eq_true.mp hany
          exact List.mem_map.mpr ⟨x, hmem, by simpa using hx⟩
  · simp

theorem mem_lookup_of_nodup : ∀ (acc : List (Nat × Int)),
    (acc.map Prod.fst).Nodup → ∀ c ∈ acc, c.2 = lookupEarnings acc c.1
  | [], _, c, hc => by cases hc
  | x :: acc, hnd, c, hc => by
      obtain ⟨hx1, hnd2⟩ := List.nodup_cons.mp (hnd : (x.1 :: acc.map Prod.fst).Nodup)
      rcases List.mem_cons.mp hc with hc | hc
      · subst hc
        simp [lookupEarnings, List.find?_cons]
      · have hcx : ¬ c.1 = x.1 := by
          intro hceq
          exact hx1 (hceq ▸ List.mem_map_of_mem Prod.fst hc)
        have hxc : ¬ (x.1 = c.1) := fun hcc => hcx hcc.symm
        simpa [lookupEarnings, List.find?_cons, hxc] using
          mem_lookup_of_nodup acc hnd2 c hc

theorem map_update_id_of_absent (s : Nat) (e : Int) :
    ∀ acc : List (Nat × Int), (∀ y ∈ acc, ¬ y.1 = s) →
    acc.map (fun y => if y.1 = s then (y.1, y.2 + e) else y) = acc
  | [], _ => rfl
  | y :: acc, h => by
      have hy : ¬ y.1 = s := h y (.head _)
      rw [List.map_cons, if_neg hy,
        map_update_id_of_absent s e acc (fun z hz => h z (.tail _ hz))]

theorem sum_map_update (s : Nat) (e : Int) :
    ∀ acc : List (Nat × Int), (acc.map Prod.fst).Nodup →
    acc.any (fun x => x.1 = s) = true →
    ((acc.map (fun x => if x.1 = s then (x.1, x.2 + e) else x)).map Prod.snd).sum =
      (acc.map Prod.snd).sum + e
  | [], _, hany => by simp at hany
  | x :: acc, hnd, hany => by
      obtain ⟨hx1, hnd2⟩ := List.nodup_cons.mp (hnd : (x.1 :: acc.map Prod.fst).Nodup)
      by_cases hxs : x.1 = s
      · have habs : ∀ y ∈ acc, ¬ y.1 = s := by
          intro y hy hys
          exact hx1 (by rw [hxs, ← hys]; exact List.mem_map_of_mem Prod.fst hy)
        rw [List.map_cons, if_pos hxs, map_update_id_of_absent s e acc habs,
          List.map_cons, List.sum_cons, List.map_cons, List.sum_cons]
        ring
      · have hany2 : acc.any (fun x => x.1 = s) = true := by
          rcases List.any_eq_true.mp hany with ⟨y, hymem, hy⟩
          rcases List.mem_cons.mp hymem with hyx | hymem2
          · exact absurd (by simpa [hyx] using hy) hxs
          · exact List.any_eq_true.mpr ⟨y, hymem2, hy⟩
        rw [List.map_cons, if_neg hxs, List.map_cons, List.sum_cons,
          List.map_cons, List.sum_cons, sum_map_update s e acc hnd2 hany2]
        ring

theorem sum_addEarnings (acc : List (Nat × Int)) (s : Nat) (e : Int)
    (h : (acc.map Prod.fst).Nodup) :
    ((addEarnings acc s e).map Prod.snd).sum = (acc.map Prod.snd).sum + e := by
  rw [addEarnings]
  split
  · next hany => exact sum_map_update s e acc h hany
  · simp

theorem sellerTotals_foldl_lookup :
    ∀ (plans : List OrderPlan) (acc : List (Nat × Int)) (t : Nat),
    lookupEarnings (plans.foldl (fun acc p =>
      addEarnings acc p.seller_id (p.unit_price_cents * p.quantity)) acc) t =
      lookupEarnings acc t +
        ((plans.filter (fun p => p.seller_id = t)).map
          (fun p => p.unit_price_cents * p.quantity)).sum
  | [], acc, t => by simp
  | p :: ps, acc, t => by
      rw [List.foldl_cons, sellerTotals_foldl_lookup ps _ t,
        lookupEarnings_addEarnings]
      by_cases hts : t = p.seller_id
      · have hst : p.seller_id = t := hts.symm
        rw [if_pos hts]
        simp [List.filter_cons, hst]
        ring
      · have hst : ¬ (p.seller_id = t) := fun hc => hts hc.symm
        rw [if_neg hts]
        simp [List.filter_cons, hst]

theorem sellerTotals_foldl_nodup :
    ∀ (plans : List OrderPlan) (acc : List (Nat × Int)),
    (acc.map Prod.fst).Nodup →
    (((plans.foldl (fun acc p =>
      addEarnings acc p.seller_id (p.unit_price_cents * p.quantity)) acc)).map
        Prod.fst).Nodup
  | [], _, h => h
  | p :: ps, acc, h =>
      sellerTotals_foldl_nodup ps _ (addEarnings_fst_nodup _ _ _ h)

theorem sellerTotals_foldl_mem :
    ∀ (plans : List OrderPlan) (acc : List (Nat × Int)) (t : Nat),
    t ∈ ((plans.foldl (fun acc p =>
      addEarnings acc p.seller_id (p.unit_price_cents * p.quantity)) acc)).map
        Prod.fst ↔
      t ∈ acc.map Prod.fst ∨ t ∈ plans.map (fun p => p.seller_id)
  | [], acc, t => by simp
  | p :: ps, acc, t => by
      rw [List.foldl_cons, sellerTotals_foldl_mem ps _ t, addEarnings_fst_mem]
      simp [List.mem_cons]
      tauto

theorem sellerTotals_foldl_sum :
    ∀ (plans : List OrderPlan) (acc : List (Nat × Int)),
    (acc.map Prod.fst).Nodup →
    (((plans.foldl (fun acc p =>
      addEarnings acc p.seller_id (p.unit_price_cents * p.quantity)) acc)).map
        Prod.snd).sum =
      (acc.map Prod.snd).sum +
        (plans.map (fun p => p.unit_price_cents * p.quantity)).sum
  | [], acc, h => by simp
  | p :: ps, acc, h => by
      rw [List.foldl_cons,
        sellerTotals_foldl_sum ps _ (addEarnings_fst_nodup _ _ _ h),
        sum_addEarnings _ _ _ h]
      simp
      ring

theorem sellerTotals_nodup (plans : List OrderPlan) :
    ((sellerTotals plans).map Prod.fst).Nodup :=
  sellerTotals_foldl_nodup plans [] (by simp)

theorem sellerTotals_mem (plans : List OrderPlan) (t : Nat) :
    t ∈ (sellerTotals plans).map Prod.fst ↔
      t ∈ plans.map (fun p => p.seller_id) := by
  rw [sellerTotals, sellerTotals_foldl_mem]
  simp

theorem sellerTotals_sum (plans : List OrderPlan) :
    ((sellerTotals plans).map Prod.snd).sum =
      (plans.map (fun p => p.unit_price_cents * p.quantity)).sum := by
  rw [sellerTotals, sellerTotals_foldl_sum plans [] (by simp)]
  simp

theorem sellerTotals_value (plans : List OrderPlan) (c : Nat × Int)
    (hc : c ∈ sellerTotals plans) :
    c.2 = ((plans.filter (fun p => p.seller_id = c.1)).map
      (fun p => p.unit_price_cents * p.quantity)).sum := by
  have h1 := mem_lookup_of_nodup _ (sellerTotals_nodup plans) c hc
  have h2 := sellerTotals_foldl_lookup plans [] c.1
  rw [← sellerTotals] at h2
  rw [h1, h2]
  simp [lookupEarnings]

theorem planRows_subtotals (oid : Nat) :
    ∀ (nid : Nat) (ps : List OrderPlan),
    (planRows nid oid ps).map (fun r => r.unit_price_cents * r.quantity) =
      ps.map (fun p => p.unit_price_cents * p.quantity)
  | _, [] => rfl
  | nid, p :: ps => by
      rw [planRows, List.map_cons, List.map_cons, planRows_subtotals oid (nid+1) ps]

theorem planRows_sellers (oid : Nat) :
    ∀ (nid : Nat) (ps : List OrderPlan),
    (planRows nid oid ps).map (fun r => r.seller_id) =
      ps.map (fun p => p.seller_id)
  | _, [] => rfl
  | nid, p :: ps => by
      rw [planRows, List.map_cons, List.map_cons, planRows_sellers oid (nid+1) ps]

theorem planRows_order_id (oid : Nat) :
    ∀ (nid : Nat) (ps : List OrderPlan) (r : OrderItemRow),
    r ∈ planRows nid oid ps → r.order_id = oid
  | _, [], r, h => by cases h
  | nid, p :: ps, r, h => by
      rcases List.mem_cons.mp h with h | h
      · subst h; rfl
      · exact planRows_order_id oid (nid+1) ps r h

theorem planRows_mem (oid : Nat) :
    ∀ (nid : Nat) (ps : List OrderPlan) (r : OrderItemRow),
    r ∈ planRows nid oid ps → ∃ p ∈ ps, r.seller_id = p.seller_id ∧
      r.product_id = p.product_id ∧ r.quantity = p.quantity ∧
      r.unit_price_cents = p.unit_price_cents
  | _, [], r, h => by cases h
  | nid, p :: ps, r, h => by
      rcases List.mem_cons.mp h with h | h
      · subst h; exact ⟨p, .head _, rfl, rfl, rfl, rfl⟩
      · obtain ⟨q, hq, hh⟩ := planRows_mem oid (nid+1) ps r h
        exact ⟨q, .tail _ hq, hh⟩

theorem planRows_filter_seller (oid s : Nat) :
    ∀ (nid : Nat) (ps : List OrderPlan),
    ((planRows nid oid ps).filter (fun r => r.seller_id = s)).map
        (fun r => r.unit_price_cents * r.quantity) =
      ((ps.filter (fun p => p.seller_id = s)).map
        (fun p => p.unit_price_cents * p.quantity))
  | _, [] => rfl
  | nid, p :: ps => by
      rw [planRows, List.filter_cons, List.filter_cons]
      by_cases hs : p.seller_id = s
      · simp [hs, planRows_filter_seller oid s (nid+1) ps]
      · simp [hs, planRows_filter_seller oid s (nid+1) ps]

theorem clearCartItems_fields (st : DBState) (uid : Nat) :
    (clearCartItems st uid).balances = st.balances ∧
    (clearCartItems st uid).balance_tx = st.balance_tx ∧
    (clearCartItems st uid).orders = st.orders ∧
    (clearCartItems st uid).order_items = st.order_items ∧
    (clearCartItems st uid).inventory = st.inventory ∧
    (clearCartItems st uid).carts = st.carts ∧
    (clearCartItems st uid).products = st.products ∧
    (clearCartItems st uid).users = st.users ∧
    (clearCartItems st uid).next_order_id = st.next_order_id ∧
    (clearCartItems st uid).next_order_item_id = st.next_order_item_id ∧
    (clearCartItems st uid).clock = st.clock := by
  rw [clearCartItems]
  cases userCartId st uid <;> simp

theorem insertOrderRow_eq (st : DBState) (buyer : Nat) (total : Int) :
    insertOrderRow st buyer total =
      ((insertOrderRow st buyer total).1, st.next_order_id) := rfl

/-- Inversion of a successful `submit_order` call: it passed validation and
every commit-phase step, and its final state is the cart-cleared state after
the order insert, item loop, buyer debit and seller credits. -/
theorem submit_order_ok_inv (st : DBState) (uid oid : Nat)
    (h : (submit_order st uid none).order_id = some oid) :
    ∃ plans total st3 v st4 k2,
      validateLines st uid (cartLines st uid) = .ok (plans, total) ∧
      ¬ get_balance st uid < total ∧
      oid = st.next_order_id ∧
      adjust_balance (planFold oid (insertOrderRow st uid total).1 plans) uid
        (-total) ("Order #" ++ toString oid) = (st3, .ok v) ∧
      creditSellers none oid st3 (1 + 2 * plans.length + 1)
        (sellerTotals plans) = .ok st4 k2 ∧
      submit_order st uid none = ⟨clearCartItems st4 uid, some oid, none⟩ := by
  by_cases hEmpty : (cartLines st uid).isEmpty
  · have hso : submit_order st uid none = ⟨st, none, some "Cart is empty"⟩ := by
      simp only [submit_order]
      rw [if_pos hEmpty]
    rw [hso] at h
    cases h
  · cases hval : validateLines st uid (cartLines st uid) with
    | error e =>
        have hso : submit_order st uid none = ⟨st, none, some e⟩ := by
          simp only [submit_order]
          rw [if_neg hEmpty, hval]
        rw [hso] at h
        cases h
    | ok pr =>
        rcases pr with ⟨plans, total⟩
        by_cases hbal : get_balance st uid < total
        · have hso : submit_order st uid none =
              ⟨st, none, some (insufficientBalanceMsg total (get_balance st uid))⟩ := by
            simp only [submit_order]
            rw [if_neg hEmpty, hval]
            simp [hbal]
          rw [hso] at h
          cases h
        · have hso : submit_order st uid none =
              submitCommit st uid plans total none := by
            simp only [submit_order]
            rw [if_neg hEmpty, hval]
            simp [hbal]
          rcases hadj : adjust_balance
              (planFold st.next_order_id (insertOrderRow st uid total).1 plans)
              uid (-total) ("Order #" ++ toString st.next_order_id)
            with ⟨st3, ev⟩
          cases ev with
          | error e =>
              have hsc : submitCommit st uid plans total none =
                  orderAbort st st3 e := by
                simp only [submitCommit, failsAt_none]
                rw [insertOrderRow_eq]
                simp only [applyPlanItems_none, failsAt_none]
                rw [hadj]
              rw [hso, hsc] at h
              cases h
          | ok v =>
              rcases hcred : creditSellers none st.next_order_id st3
                  (1 + 2 * plans.length + 1) (sellerTotals plans)
                with ⟨st4, k2⟩ | ⟨stf, e2⟩
              · have hsc : submitCommit st uid plans total none =
                    ⟨clearCartItems st4 uid, some st.next_order_id, none⟩ := by
                  simp only [submitCommit, failsAt_none]
                  rw [insertOrderRow_eq]
                  simp only [applyPlanItems_none, failsAt_none]
                  rw [hadj]
                  simp only []
                  rw [hcred]
                rw [hso, hsc] at h
                have hoid : oid = st.next_order_id := by
                  simpa using h.symm
                subst hoid
                exact ⟨plans, total, st3, v, st4, k2, rfl, hbal, rfl, hadj,
                  hcred, hso.trans hsc⟩
              · have hsc : submitCommit st uid plans total none =
                    orderAbort st stf e2 := by
                  simp only [submitCommit, failsAt_none]
                  rw [insertOrderRow_eq]
                  simp only [applyPlanItems_none, failsAt_none]
                  rw [hadj]
                  simp only []
                  rw [hcred]
                rw [hso, hsc] at h
                cases h

/-- C2 counterexample: with catalog price 0.001 dollars the snapshot is 0
cents; checkout succeeds (order total 0) but appends NO ledger row at all —
in particular not "exactly one ledger credit per distinct seller", although
the order has the distinct seller 2 (`adjust_balance` is a no-op for a zero
delta). -/
theorem c2_counterexample :
    (submit_order exZero 1 none).order_id = some 1 ∧
    (submit_order exZero 1 none).state.balance_tx = [] ∧
    ((submit_order exZero 1 none).state.order_items.map
      (fun r => r.seller_id)) = [2] := by
  decide

/-- C2 (amended): every successful fault-free checkout satisfies the
conservation law — buyer debit = order total = sum of line subtotals = sum of
per-seller credits, with the per-seller credits aggregated (one per distinct
seller), each seller's balance rising by its aggregate, and one ledger row
per nonzero amount (zero aggregates produce no ledger row). -/
theorem c2_conservation (st : DBState) (uid oid : Nat)
    (h : (submit_order st uid none).order_id = some oid) :
    ConservationSpec st uid oid := by
  obtain ⟨plans, total, st3, v, st4, k2, hval, hbal, hoid, hadj, hcred, hout⟩ :=
    submit_order_ok_inv st uid oid h
  obtain ⟨hv1, hv2, hv3, hv4⟩ := validateLines_ok_spec st uid _ plans total hval
  obtain ⟨ha1, ha2, ha3, ha4, ha5, ha6, ha7, ha8, ha9, ha10, ha11, ha12, ha13,
    ha14, ha15, _⟩ := adjust_balance_ok_spec _ uid (-total) _ st3 v hadj
  obtain ⟨hc1, hc2, hc3, hc4, hc5, hc6, hc7, hc8, hc9, hc10, hc11, hc12, hc13,
    hc14, hc15⟩ := creditSellers_none_ok oid (sellerTotals plans) st3 _ st4 k2
      hcred (sellerTotals_nodup plans)
  obtain ⟨hl1, hl2, hl3, hl4, hl5, hl6, hl7, hl8, hl9, hl10, hl11⟩ :=
    clearCartItems_fields st4 uid
  obtain ⟨hp1, hp2, hp3, hp4, hp5, hp6, hp7, hp8, hp9, hp10, hp11, hp12⟩ :=
    planFold_fields oid plans (insertOrderRow st uid total).1
  have hstate : (submit_order st uid none).state = clearCartItems st4 uid := by
    rw [hout]
  have hitems : (submit_order st uid none).state.order_items.drop
      st.order_items.length = planRows st.next_order_item_id oid plans := by
    rw [hstate, hl4, hc5, ha5, hp12]
    show (st.order_items ++ planRows st.next_order_item_id oid plans).drop
      st.order_items.length = planRows st.next_order_item_id oid plans
    exact List.drop_left _ _
  have huid_not : uid ∉ (sellerTotals plans).map Prod.fst := by
    rw [sellerTotals_mem]
    intro hmem
    obtain ⟨p, hp, hps⟩ := List.mem_map.mp hmem
    exact hv3 p hp hps
  have hbal2 : get_balance (planFold oid (insertOrderRow st uid total).1 plans)
      uid = get_balance st uid := by
    rw [get_balance, get_balance, hp1]
    rfl
  refine ⟨total, sellerTotals plans, ?_, ?_, ?_, ?_, sellerTotals_nodup plans,
    ?_, ?_, ?_, ?_⟩
  · rw [hstate, hl3, hc4, ha4, hp7, hoid]
    rfl
  · rw [hstate, get_balance, hl1, ← get_balance, hc2 uid huid_not, ha1, hbal2]
    ring
  · rw [hitems]
    intro r hr
    exact planRows_order_id oid _ plans r hr
  · rw [hitems, planRows_subtotals]
    exact hv1
  · intro s
    rw [hitems, planRows_sellers, sellerTotals_mem]
  · rw [sellerTotals_sum]
    exact hv1.symm
  · intro c hc
    have hkey : c.1 ∈ plans.map (fun p => p.seller_id) := by
      rw [← sellerTotals_mem]
      exact List.mem_map_of_mem Prod.fst hc
    have hne : ¬ c.1 = uid := by
      obtain ⟨p, hp, hps⟩ := List.mem_map.mp hkey
      rw [← hps]
      exact hv3 p hp
    refine ⟨hne, ?_, ?_⟩
    · have hb2 : get_balance (planFold oid (insertOrderRow st uid total).1
          plans) c.1 = get_balance st c.1 := by
        rw [get_balance, get_balance, hp1]
        rfl
      rw [hstate, get_balance, hl1, ← get_balance, hc1 c hc, ha2 c.1 hne, hb2]
    · rw [hitems, planRows_filter_seller]
      exact sellerTotals_value plans c hc
  · have htx2 : (planFold oid (insertOrderRow st uid total).1 plans).balance_tx
        = st.balance_tx := by
      rw [hp2]
      rfl
    rw [hstate, hl2, hc3, ha3, htx2]
    by_cases ht : total = 0
    · simp [ht]
    · simp [ht, neg_eq_zero]

/-- C2 witness: Scenario A — buyer 1, one $5.00 line, seller 2. -/
theorem c2_witness :
    (submit_order exA 1 none).order_id = some 1 ∧ ConservationSpec exA 1 1 :=
  ⟨by decide, c2_conservation exA 1 1 (by decide)⟩

/-- When every cart line has a price but some line lacks an eligible seller,
the validation loop fails with the no-seller message of the first such line. -/
theorem validateLines_no_seller (st : DBState) (buyer : Nat) :
    ∀ lines : List CartLine, (∀ l ∈ lines, l.price ≠ none) →
    (∃ l ∈ lines, findSeller st l.product_id l.quantity buyer = none) →
    ∃ name qty, validateLines st buyer lines = .error (noSellerMsg name qty)
  | [], _, hex => by
      rcases hex with ⟨l, hl, _⟩
      cases hl
  | line :: rest, hp, hex => by
      rw [validateLines]
      cases hpv : line.price with
      | none => exact absurd hpv (hp line (.head _))
      | some price =>
          cases hs : findSeller st line.product_id line.quantity buyer with
          | none =>
              refine ⟨line.name, line.quantity, ?_⟩
              simp [hpv, hs]
          | some srow =>
              have hex2 : ∃ l ∈ rest,
                  findSeller st l.product_id l.quantity buyer = none := by
                rcases hex with ⟨l, hl, hfs⟩
                rcases List.mem_cons.mp hl with hl | hl
                · subst hl
                  rw [hs] at hfs
                  cases hfs
                · exact ⟨l, hl, hfs⟩
              obtain ⟨name, qty, hrec⟩ := validateLines_no_seller st buyer rest
                (fun l hl => hp l (.tail _ hl)) hex2
              refine ⟨name, qty, ?_⟩
              simp [hpv, hs, hrec]

theorem validationOutcome_of_error (st : DBState) (uid : Nat) (e : String)
    (hne : ¬ (cartLines st uid).isEmpty = true)
    (hval : validateLines st uid (cartLines st uid) = .error e) :
    validationOutcome st uid = some e := by
  rw [validationOutcome, if_neg hne, hval]

/-- The new order lines of a successful checkout are exactly the rows built
from the validated plans. -/
theorem submit_order_ok_items (st : DBState) (uid oid : Nat)
    (h : (submit_order st uid none).order_id = some oid) :
    ∃ plans total,
      validateLines st uid (cartLines st uid) = .ok (plans, total) ∧
      (submit_order st uid none).state.order_items.drop
        st.order_items.length = planRows st.next_order_item_id oid plans := by
  obtain ⟨plans, total, st3, v, st4, k2, hval, hbal, hoid, hadj, hcred, hout⟩ :=
    submit_order_ok_inv st uid oid h
  obtain ⟨_, _, _, _, ha5, _, _, _, _, _, _, _, _, _, _, _⟩ :=
    adjust_balance_ok_spec _ uid (-total) _ st3 v hadj
  obtain ⟨_, _, _, _, hc5, _, _, _, _, _, _, _, _, _, _⟩ :=
    creditSellers_none_ok oid (sellerTotals plans) st3 _ st4 k2 hcred
      (sellerTotals_nodup plans)
  obtain ⟨_, _, _, hl4, _, _, _, _, _, _, _⟩ := clearCartItems_fields st4 uid
  obtain ⟨_, _, _, _, _, _, _, _, _, _, _, hp12⟩ :=
    planFold_fields oid plans (insertOrderRow st uid total).1
  have hstate : (submit_order st uid none).state = clearCartItems st4 uid := by
    rw [hout]
  refine ⟨plans, total, hval, ?_⟩
  rw [hstate, hl4, hc5, ha5, hp12]
  show (st.order_items ++ planRows st.next_order_item_id oid plans).drop
    st.order_items.length = planRows st.next_order_item_id oid plans
  exact List.drop_left _ _

/-- C6: (success direction) every line of a successfully submitted order was
assigned a seller who, in the pre-call state, is distinct from the buyer,
holds at least the requested quantity, and holds the most among all eligible
non-buyer holders; (failure direction) when every line has a price but some
line has no eligible holder — in particular when the buyer is the only
sufficient holder — the whole checkout fails with the
no-seller-with-sufficient-inventory message and no state change. -/
theorem c6_seller_selection (st : DBState) (uid : Nat) :
    (∀ oid, (submit_order st uid none).order_id = some oid →
      ∀ r ∈ (submit_order st uid none).state.order_items.drop
          st.order_items.length,
        ¬ r.seller_id = uid ∧
        ∃ inv ∈ st.inventory, inv.user_id = r.seller_id ∧
          inv.product_id = r.product_id ∧ r.quantity ≤ inv.quantity ∧
          ∀ r2 ∈ st.inventory, r2.product_id = r.product_id →
            ¬ r2.user_id = uid → r.quantity ≤ r2.quantity →
            r2.quantity ≤ inv.quantity) ∧
    ((∀ l ∈ cartLines st uid, l.price ≠ none) →
      (∃ l ∈ cartLines st uid,
        findSeller st l.product_id l.quantity uid = none) →
      ∃ name qty, ∀ fa, submit_order st uid fa =
        ⟨st, none, some (noSellerMsg name qty)⟩) := by
  constructor
  · intro oid h r hr
    obtain ⟨plans, total, hval, hitems⟩ := submit_order_ok_items st uid oid h
    obtain ⟨hv1, hv2, hv3, hv4⟩ := validateLines_ok_spec st uid _ plans total hval
    rw [hitems] at hr
    obtain ⟨p, hp, hseller, hpid, hqty, hunit⟩ := planRows_mem oid _ plans r hr
    refine ⟨?_, ?_⟩
    · rw [hseller]
      exact hv3 p hp
    · obtain ⟨inv, hinv, hiu, hip, hiq, himax⟩ := hv4 p hp
      refine ⟨inv, hinv, ?_, ?_, ?_, ?_⟩
      · rw [hseller]; exact hiu
      · rw [hpid]; exact hip
      · rw [hqty]; exact hiq
      · intro r2 h2 hp2 hb2 hq2
        exact himax r2 h2 (by rw [← hpid]; exact hp2) hb2
          (by rw [← hqty]; exact hq2)
  · intro hprices hex
    obtain ⟨name, qty, hval⟩ := validateLines_no_seller st uid _ hprices hex
    have hne : ¬ (cartLines st uid).isEmpty = true := by
      rcases hex with ⟨l, hl, _⟩
      intro hemp
      rw [List.isEmpty_iff] at hemp
      rw [hemp] at hl
      cases hl
    exact ⟨name, qty, fun fa => submit_order_validation_eq st uid fa _
      (validationOutcome_of_error st uid _ hne hval)⟩

/-- C6 witness: Scenario A (seller 2 is picked: not the buyer, 10 ≥ 1 units,
maximal) and the self-dealing case `exNoSeller` (buyer 1 is the only
sufficient holder: checkout fails with the no-seller message). -/
theorem c6_witness :
    (∀ r ∈ (submit_order exA 1 none).state.order_items.drop
        exA.order_items.length,
      ¬ r.seller_id = 1 ∧
      ∃ inv ∈ exA.inventory, inv.user_id = r.seller_id ∧
        inv.product_id = r.product_id ∧ r.quantity ≤ inv.quantity ∧
        ∀ r2 ∈ exA.inventory, r2.product_id = r.product_id →
          ¬ r2.user_id = 1 → r.quantity ≤ r2.quantity →
          r2.quantity ≤ inv.quantity) ∧
    (∃ name qty, ∀ fa, submit_order exNoSeller 1 fa =
      ⟨exNoSeller, none, some (noSellerMsg name qty)⟩) :=
  ⟨(c6_seller_selection exA 1).1 1 (by decide),
   (c6_seller_selection exNoSeller 1).2 (by decide) (by decide)⟩

theorem pairwise_key_eq {α : Type _} (P : α → α → Prop) :
    ∀ (l : List α), l.Pairwise (fun a b => ¬ P a b) →
    ∀ x ∈ l, ∀ y ∈ l, P x y → P y x → x = y
  | [], _, x, hx, _, _, _, _ => by cases hx
  | a :: l, hpw, x, hx, y, hy, hxy, hyx => by
      obtain ⟨ha, hl⟩ := List.pairwise_cons.mp hpw
      rcases List.mem_cons.mp hx with hx1 | hx1
      · rcases List.mem_cons.mp hy with hy1 | hy1
        · rw [hx1, hy1]
        · subst hx1
          exact absurd hxy (ha y hy1)
      · rcases List.mem_cons.mp hy with hy1 | hy1
        · subst hy1
          exact absurd hyx (ha x hx1)
        · exact pairwise_key_eq P l hl x hx1 y hy1 hxy hyx

/-- Key-preserving inventory updates keep the unique-key property. -/
theorem inventory_pairwise_map (l : List InventoryRow)
    (f : InventoryRow → InventoryRow)
    (hf : ∀ r, (f r).user_id = r.user_id ∧ (f r).product_id = r.product_id)
    (h : l.Pairwise (fun a b => ¬ (a.user_id = b.user_id ∧
      a.product_id = b.product_id))) :
    (l.map f).Pairwise (fun a b => ¬ (a.user_id = b.user_id ∧
      a.product_id = b.product_id)) := by
  refine h.map f ?_
  intro a b hab hk
  exact hab ⟨by rw [← (hf a).1, ← (hf b).1]; exact hk.1,
    by rw [← (hf a).2, ← (hf b).2]; exact hk.2⟩

/-- C3 counterexample: `update_product_quantity` writes the supplied quantity
unchecked: starting from nonnegative stock (10 units), setting −5 stores −5. -/
theorem c3_counterexample :
    invNonneg exA ∧
    (update_product_quantity exA 2 10 (-5)).1.inventory = [⟨2, 10, -5⟩] ∧
    ¬ invNonneg (update_product_quantity exA 2 10 (-5)).1 := by
  decide

theorem add_product_preserves (st : DBState) (uid pid : Nat) (q : Int)
    (hq : 0 ≤ q) (hwf : StateWF st) (hinv : invNonneg st) :
    StateWF (add_product_to_inventory st uid pid q) ∧
    invNonneg (add_product_to_inventory st uid pid q) := by
  obtain ⟨hw1, hw2, hw3⟩ := hwf
  rw [add_product_to_inventory]
  cases hf : st.inventory.find? (fun r => r.user_id = uid ∧ r.product_id = pid) with
  | some r =>
      have hrmem := List.mem_of_find?_eq_some hf
      have hrq := hinv r hrmem
      refine ⟨⟨?_, hw2, hw3⟩, ?_⟩
      · refine inventory_pairwise_map _ _ ?_ hw1
        intro x
        by_cases hx : x.user_id = uid ∧ x.product_id = pid <;> simp [hx]
      · intro x hx
        obtain ⟨y, hy, hyx⟩ := List.mem_map.mp hx
        by_cases hcond : y.user_id = uid ∧ y.product_id = pid
        · rw [← hyx, if_pos hcond]
          show 0 ≤ r.quantity + q
          omega
        · rw [← hyx, if_neg hcond]
          exact hinv y hy
  | none =>
      refine ⟨⟨?_, hw2, hw3⟩, ?_⟩
      · rw [List.pairwise_append]
        refine ⟨hw1, by simp, ?_⟩
        intro a ha b hb
        have hbx : b = (⟨uid, pid, q⟩ : InventoryRow) := by
          simpa using hb
        subst hbx
        intro hk
        have := List.find?_eq_none.mp hf a ha
        simp at this
        exact absurd hk.2 (this hk.1)
      · intro x hx
        rcases List.mem_append.mp hx with hx | hx
        · exact hinv x hx
        · have hxe : x = (⟨uid, pid, q⟩ : InventoryRow) := by simpa using hx
          rw [hxe]
          exact hq

theorem update_product_preserves (st : DBState) (uid pid : Nat) (q : Int)
    (hq : 0 ≤ q) (hwf : StateWF st) (hinv : invNonneg st) :
    StateWF (update_product_quantity st uid pid q).1 ∧
    invNonneg (update_product_quantity st uid pid q).1 := by
  obtain ⟨hw1, hw2, hw3⟩ := hwf
  rw [update_product_quantity]
  split
  · refine ⟨⟨?_, hw2, hw3⟩, ?_⟩
    · refine inventory_pairwise_map _ _ ?_ hw1
      intro x
      by_cases hx : x.user_id = uid ∧ x.product_id = pid <;> simp [hx]
    · intro x hx
      obtain ⟨y, hy, hyx⟩ := List.mem_map.mp hx
      by_cases hcond : y.user_id = uid ∧ y.product_id = pid
      · rw [← hyx, if_pos hcond]
        exact hq
      · rw [← hyx, if_neg hcond]
        exact hinv y hy
  · exact ⟨⟨hw1, hw2, hw3⟩, hinv⟩

theorem adjust_balance_carts (st : DBState) (u : Nat) (d : Int) (note : String) :
    (adjust_balance st u d note).1.carts = st.carts := by
  rcases hadj : adjust_balance st u d note with ⟨st1, ev⟩
  cases ev with
  | error e =>
      obtain ⟨h1, _⟩ := adjust_balance_error_spec st u d note st1 e hadj
      rw [h1]
  | ok v =>
      obtain ⟨_, _, _, _, _, _, h7, _⟩ :=
        adjust_balance_ok_spec st u d note st1 v hadj
      exact h7

theorem applyPlanItems_carts (fa : Option (Nat × String)) (oid : Nat) :
    ∀ (ps : List OrderPlan) (st : DBState) (k : Nat),
    (∀ st' k', applyPlanItems fa oid st k ps = .ok st' k' →
      st'.carts = st.carts) ∧
    (∀ stf e, applyPlanItems fa oid st k ps = .fail stf e →
      stf.carts = st.carts)
  | [], st, k => by
      constructor
      · intro st' k' h
        rw [applyPlanItems] at h
        cases h
        rfl
      · intro stf e h
        rw [applyPlanItems] at h
        cases h
  | p :: ps, st, k => by
      constructor
      · intro st' k' h
        rw [applyPlanItems] at h
        split at h
        · cases h
        · split at h
          · cases h
          · exact ((applyPlanItems_carts fa oid ps
                (decrementInventory (insertItemRow st oid p) p)
                (k+2)).1 st' k' h).trans rfl
      · intro stf e h
        rw [applyPlanItems] at h
        split at h
        · cases h
          rfl
        · split at h
          · cases h
            rfl
          · exact ((applyPlanItems_carts fa oid ps
                (decrementInventory (insertItemRow st oid p) p)
                (k+2)).2 stf e h).trans rfl

theorem creditSellers_carts (fa : Option (Nat × String)) (oid : Nat) :
    ∀ (l : List (Nat × Int)) (st : DBState) (k : Nat),
    (∀ st' k', creditSellers fa oid st k l = .ok st' k' →
      st'.carts = st.carts) ∧
    (∀ stf e, creditSellers fa oid st k l = .fail stf e →
      stf.carts = st.carts)
  | [], st, k => by
      constructor
      · intro st' k' h
        rw [creditSellers] at h
        cases h
        rfl
      · intro stf e h
        rw [creditSellers] at h
        cases h
  | (s, earn) :: rest, st, k => by
      constructor
      · intro st' k' h
        rw [creditSellers] at h
        split at h
        · cases h
        · split at h
          · next st1 e2 hadj =>
              cases h
          · next st1 v hadj =>
              have h1 : st1.carts = st.carts := by
                rw [show st1 = (adjust_balance st s earn
                    ("Order #" ++ toString oid ++ " sale")).1 from by rw [hadj]]
                exact adjust_balance_carts ..
              rw [(creditSellers_carts fa oid rest st1 (k+1)).1 st' k' h, h1]
      · intro stf e h
        rw [creditSellers] at h
        split at h
        · cases h
          rfl
        · split at h
          · next st1 e2 hadj =>
              cases h
              rw [show stf = (adjust_balance st s earn
                  ("Order #" ++ toString oid ++ " sale")).1 from by rw [hadj]]
              exact adjust_balance_carts ..
          · next st1 v hadj =>
              have h1 : st1.carts = st.carts := by
                rw [show st1 = (adjust_balance st s earn
                    ("Order #" ++ toString oid ++ " sale")).1 from by rw [hadj]]
                exact adjust_balance_carts ..
              rw [(creditSellers_carts fa oid rest st1 (k+1)).2 stf e h, h1]

theorem rollbackConn_preserves (st cur : DBState) (hwf : StateWF st)
    (hinv : invNonneg st) (hc : cur.carts = st.carts) :
    StateWF (rollbackConn st cur) ∧ invNonneg (rollbackConn st cur) := by
  obtain ⟨h1, h2, h3⟩ := hwf
  refine ⟨⟨h1, h2, ?_⟩, ?_⟩
  · show cur.carts.Pairwise _
    rw [hc]
    exact h3
  · intro r hr
    exact hinv r hr

theorem planFold_inventory (oid : Nat) :
    ∀ (ps : List OrderPlan) (st : DBState),
    st.inventory.Pairwise (fun a b => ¬ (a.user_id = b.user_id ∧
      a.product_id = b.product_id)) →
    (∀ r ∈ st.inventory, 0 ≤ r.quantity) →
    (∀ p ∈ ps, ∃ r ∈ st.inventory, r.user_id = p.seller_id ∧
      r.product_id = p.product_id ∧ p.quantity ≤ r.quantity) →
    (ps.map (fun p => p.product_id)).Nodup →
    (∀ r ∈ (planFold oid st ps).inventory, 0 ≤ r.quantity) ∧
    (planFold oid st ps).inventory.Pairwise
      (fun a b => ¬ (a.user_id = b.user_id ∧ a.product_id = b.product_id))
  | [], st, hpw, hnn, _, _ => ⟨hnn, hpw⟩
  | p :: ps, st, hpw, hnn, hwit, hnd => by
      rw [planFold]
      obtain ⟨rw0, hrmem, hru, hrp, hrq⟩ := hwit p (.head _)
      have hnd2 : (ps.map (fun p => p.product_id)).Nodup ∧
          p.product_id ∉ ps.map (fun p => p.product_id) := by
        have h := List.nodup_cons.mp
          (hnd : (p.product_id :: ps.map (fun p => p.product_id)).Nodup)
        exact ⟨h.2, h.1⟩
      -- the state after this item's insert + decrement
      have hinvEq : (decrementInventory (insertItemRow st oid p) p).inventory =
          st.inventory.map (fun r =>
            if r.user_id = p.seller_id ∧ r.product_id = p.product_id
            then { r with quantity := r.quantity - p.quantity } else r) := rfl
      have hpw1 : (decrementInventory (insertItemRow st oid p) p).inventory.Pairwise
          (fun a b => ¬ (a.user_id = b.user_id ∧ a.product_id = b.product_id)) := by
        rw [hinvEq]
        refine inventory_pairwise_map _ _ ?_ hpw
        intro x
        by_cases hx : x.user_id = p.seller_id ∧ x.product_id = p.product_id <;>
          simp [hx]
      have hnn1 : ∀ r ∈ (decrementInventory (insertItemRow st oid p) p).inventory,
          0 ≤ r.quantity := by
        rw [hinvEq]
        intro x hx
        obtain ⟨y, hy, hyx⟩ := List.mem_map.mp hx
        by_cases hcond : y.user_id = p.seller_id ∧ y.product_id = p.product_id
        · have hyr : y = rw0 :=
            pairwise_key_eq _ st.inventory hpw y hy rw0 hrmem
              ⟨by rw [hcond.1, hru], by rw [hcond.2, hrp]⟩
              ⟨by rw [hcond.1, hru], by rw [hcond.2, hrp]⟩
          rw [← hyx, if_pos hcond]
          show 0 ≤ y.quantity - p.quantity
          rw [hyr]
          omega
        · rw [← hyx, if_neg hcond]
          exact hnn y hy
      have hwit1 : ∀ q ∈ ps, ∃ r ∈ (decrementInventory (insertItemRow st oid p)
          p).inventory, r.user_id = q.seller_id ∧ r.product_id = q.product_id ∧
          q.quantity ≤ r.quantity := by
        intro q hq
        obtain ⟨r2, hr2mem, hr2u, hr2p, hr2q⟩ := hwit q (.tail _ hq)
        have hqp : ¬ (q.product_id = p.product_id) := by
          intro hc
          exact hnd2.2 (hc ▸ List.mem_map_of_mem (fun p => p.product_id) hq)
        have hcond : ¬ (r2.user_id = p.seller_id ∧
            r2.product_id = p.product_id) := by
          intro hc
          exact hqp (by rw [← hr2p, hc.2])
        refine ⟨r2, ?_, hr2u, hr2p, hr2q⟩
        rw [hinvEq]
        have hmem2 : (if r2.user_id = p.seller_id ∧ r2.product_id = p.product_id
            then { r2 with quantity := r2.quantity - p.quantity } else r2) ∈
            st.inventory.map (fun r =>
              if r.user_id = p.seller_id ∧ r.product_id = p.product_id
              then { r with quantity := r.quantity - p.quantity } else r) :=
          List.mem_map_of_mem _ hr2mem
        rwa [if_neg hcond] at hmem2
      exact planFold_inventory oid ps _ hpw1 hnn1 hwit1 hnd2.1

theorem applyPlanItems_ok_eq (fa : Option (Nat × String)) (oid : Nat) :
    ∀ (ps : List OrderPlan) (st : DBState) (k : Nat) (st' : DBState) (k' : Nat),
    applyPlanItems fa oid st k ps = .ok st' k' → st' = planFold oid st ps
  | [], st, k, st', k', h => by
      rw [applyPlanItems] at h
      cases h
      rfl
  | p :: ps, st, k, st', k', h => by
      rw [applyPlanItems] at h
      split at h
      · cases h
      · split at h
        · cases h
        · rw [planFold]
          exact applyPlanItems_ok_eq fa oid ps _ (k+2) st' k' h

theorem creditSellers_ok_conn (fa : Option (Nat × String)) (oid : Nat) :
    ∀ (l : List (Nat × Int)) (st : DBState) (k : Nat) (st' : DBState) (k' : Nat),
    creditSellers fa oid st k l = .ok st' k' →
    st'.inventory = st.inventory ∧ st'.cart_items = st.cart_items ∧
    st'.carts = st.carts
  | [], st, k, st', k', h => by
      rw [creditSellers] at h
      cases h
      exact ⟨rfl, rfl, rfl⟩
  | (s, earn) :: rest, st, k, st', k', h => by
      rw [creditSellers] at h
      split at h
      · cases h
      · split at h
        · next st1 e2 hadj => cases h
        · next st1 v hadj =>
            obtain ⟨_, _, _, _, _, h6, h7, h8, _⟩ :=
              adjust_balance_ok_spec st s earn _ st1 v hadj
            obtain ⟨i1, i2, i3⟩ :=
              creditSellers_ok_conn fa oid rest st1 (k+1) st' k' h
            exact ⟨i1.trans h6, i2.trans h8, i3.trans h7⟩

theorem clearCartItems_pairwise (st : DBState) (uid : Nat)
    {R : CartItemRow → CartItemRow → Prop}
    (h : st.cart_items.Pairwise R) :
    (clearCartItems st uid).cart_items.Pairwise R := by
  rw [clearCartItems]
  cases userCartId st uid
  · exact h
  · exact h.filter _

theorem clearCartItems_inv_carts (st : DBState) (uid : Nat) :
    (clearCartItems st uid).inventory = st.inventory ∧
    (clearCartItems st uid).carts = st.carts := by
  rw [clearCartItems]
  cases userCartId st uid
  · exact ⟨rfl, rfl⟩
  · exact ⟨rfl, rfl⟩

theorem submitCommit_preserves (st : DBState) (uid : Nat)
    (plans : List OrderPlan) (total : Int) (fa : Option (Nat × String))
    (hwf : StateWF st) (hinv : invNonneg st)
    (hplans : ∀ p ∈ plans, ∃ r ∈ st.inventory, r.user_id = p.seller_id ∧
      r.product_id = p.product_id ∧ p.quantity ≤ r.quantity)
    (hnodup : (plans.map (fun p => p.product_id)).Nodup) :
    StateWF (submitCommit st uid plans total fa).state ∧
    invNonneg (submitCommit st uid plans total fa).state := by
  obtain ⟨hw1, hw2, hw3⟩ := hwf
  rw [submitCommit]
  split
  · exact rollbackConn_preserves st st ⟨hw1, hw2, hw3⟩ hinv rfl
  · split
    next st1 oid heq =>
      have hst1 : st1 = (insertOrderRow st uid total).1 := by rw [heq]
      have hc1 : st1.carts = st.carts := by rw [hst1]; rfl
      have hci1 : st1.cart_items = st.cart_items := by rw [hst1]; rfl
      have hinv1 : st1.inventory = st.inventory := by rw [hst1]; rfl
      split
      next stf e hAP =>
        have hcf : stf.carts = st.carts :=
          (((applyPlanItems_carts fa oid plans st1 1).2 stf e hAP).trans hc1)
        exact rollbackConn_preserves st stf ⟨hw1, hw2, hw3⟩ hinv hcf
      next st2 k hAP =>
        have hst2 : st2 = planFold oid st1 plans :=
          applyPlanItems_ok_eq fa oid plans st1 1 st2 k hAP
        obtain ⟨hp1, hp2, hp3, hp4, hp5, hp6, hp7, hp8, hp9, hp10, hp11,
          hp12⟩ := planFold_fields oid plans st1
        have hc2 : st2.carts = st.carts := by
          rw [hst2, hp3, hc1]
        have hci2 : st2.cart_items = st.cart_items := by
          rw [hst2, hp4, hci1]
        have hi2 : (∀ r ∈ st2.inventory, 0 ≤ r.quantity) ∧
            st2.inventory.Pairwise (fun a b => ¬ (a.user_id = b.user_id ∧
              a.product_id = b.product_id)) := by
          rw [hst2]
          refine planFold_inventory oid plans st1 ?_ ?_ ?_ hnodup
          · rw [hinv1]; exact hw1
          · rw [hinv1]; exact fun r hr => hinv r hr
          · rw [hinv1]; exact hplans
        split
        next e hk =>
          exact rollbackConn_preserves st st2 ⟨hw1, hw2, hw3⟩ hinv hc2
        next hk =>
          split
          next st2e e hadj =>
            obtain ⟨he1, _⟩ :=
              adjust_balance_error_spec st2 uid (-total) _ st2e e hadj
            exact rollbackConn_preserves st st2e ⟨hw1, hw2, hw3⟩ hinv
              (by rw [he1]; exact hc2)
          next st3 v hadj =>
            obtain ⟨_, _, _, _, _, ha6, ha7, ha8, _⟩ :=
              adjust_balance_ok_spec st2 uid (-total) _ st3 v hadj
            split
            next stf e hcr =>
              have hcf : stf.carts = st.carts :=
                (((creditSellers_carts fa oid
                  (sellerTotals plans) st3 (k+1)).2 stf e hcr).trans
                  (ha7.trans hc2))
              exact rollbackConn_preserves st stf ⟨hw1, hw2, hw3⟩ hinv hcf
            next st4 k2 hcr =>
              obtain ⟨hcc1, hcc2, hcc3⟩ := creditSellers_ok_conn fa
                oid (sellerTotals plans) st3 (k+1) st4 k2 hcr
              have hc4 : st4.carts = st.carts :=
                hcc3.trans (ha7.trans hc2)
              have hci4 : st4.cart_items = st.cart_items :=
                hcc2.trans (ha8.trans hci2)
              have hi4nn : ∀ r ∈ st4.inventory, 0 ≤ r.quantity := by
                rw [hcc1, ha6]
                exact hi2.1
              have hi4pw : st4.inventory.Pairwise
                  (fun a b => ¬ (a.user_id = b.user_id ∧
                    a.product_id = b.product_id)) := by
                rw [hcc1, ha6]
                exact hi2.2
              split
              next e hk2 =>
                exact rollbackConn_preserves st st4 ⟨hw1, hw2, hw3⟩ hinv hc4
              next hk2 =>
                obtain ⟨hcl1, hcl2⟩ := clearCartItems_inv_carts st4 uid
                split
                next e hk3 =>
                  exact rollbackConn_preserves st
                    (clearCartItems st4 uid) ⟨hw1, hw2, hw3⟩ hinv
                    (hcl2.trans hc4)
                next hk3 =>
                  refine ⟨⟨?_, ?_, ?_⟩, ?_⟩
                  · rw [hcl1]
                    exact hi4pw
                  · refine clearCartItems_pairwise st4 uid ?_
                    rw [hci4]
                    exact hw2
                  · rw [hcl2, hc4]
                    exact hw3
                  · intro r hr
                    rw [hcl1] at hr
                    exact hi4nn r hr

theorem insertSortedBy_perm {α : Type _} (le : α → α → Bool) (a : α) :
    ∀ l : List α, (insertSortedBy le a l).Perm (a :: l)
  | [] => .refl _
  | b :: bs => by
      rw [insertSortedBy]
      split
      · exact .refl _
      · exact ((insertSortedBy_perm le a bs).cons b).trans (.swap a b bs)

theorem sortBy_perm {α : Type _} (le : α → α → Bool) :
    ∀ l : List α, (sortBy le l).Perm l
  | [] => .refl _
  | a :: as =>
      (insertSortedBy_perm le a (sortBy le as)).trans ((sortBy_perm le as).cons a)

theorem filterMap_pid_sublist (st : DBState) :
    ∀ l : List CartItemRow,
    ((l.filterMap (fun ci => (st.products.find? (fun p => p.id = ci.product_id)).map
      (fun p => (⟨ci.product_id, ci.quantity, p.price, p.name⟩ : CartLine)))).map
        (fun cl => cl.product_id)).Sublist (l.map (fun ci => ci.product_id))
  | [] => .slnil
  | ci :: l => by
      cases hf : st.products.find? (fun p => p.id = ci.product_id) with
      | none =>
          simp only [List.filterMap_cons, hf, List.map_cons]
          exact .cons _ (filterMap_pid_sublist st l)
      | some p =>
          simp only [List.filterMap_cons, hf, Option.map_some, List.map_cons]
          exact .cons₂ _ (filterMap_pid_sublist st l)

theorem filtered_cart_items_pid (st : DBState) (uid : Nat) (hwf : StateWF st) :
    ((st.cart_items.filter (fun ci =>
      st.carts.any (fun c => c.id = ci.cart_id ∧ c.user_id = uid))).map
        (fun ci => ci.product_id)).Nodup := by
  obtain ⟨_, hw2, hw3⟩ := hwf
  have hpw : (st.cart_items.filter (fun ci =>
      st.carts.any (fun c => c.id = ci.cart_id ∧ c.user_id = uid))).Pairwise
      (fun a b => ¬ a.product_id = b.product_id) := by
    have hpf := hw2.filter (fun ci =>
      st.carts.any (fun c => c.id = ci.cart_id ∧ c.user_id = uid))
    refine hpf.imp_of_mem ?_
    intro a b ha hb hab hpid
    obtain ⟨hamem, hapred⟩ := List.mem_filter.mp ha
    obtain ⟨hbmem, hbpred⟩ := List.mem_filter.mp hb
    obtain ⟨ca, hca, hcap⟩ := List.any_eq_true.mp hapred
    obtain ⟨cb, hcb, hcbp⟩ := List.any_eq_true.mp hbpred
    have hcap2 : ca.id = a.cart_id ∧ ca.user_id = uid := by simpa using hcap
    have hcbp2 : cb.id = b.cart_id ∧ cb.user_id = uid := by simpa using hcbp
    have hceq : ca = cb :=
      pairwise_key_eq _ st.carts hw3 ca hca cb hcb
        (hcap2.2.trans hcbp2.2.symm) (hcbp2.2.trans hcap2.2.symm)
    exact hab ⟨by rw [← hcap2.1, ← hcbp2.1, hceq], hpid⟩
  exact List.Pairwise.map _ (fun a b h => h) hpw

theorem cartLines_nodup (st : DBState) (uid : Nat) (hwf : StateWF st) :
    ((cartLines st uid).map (fun l => l.product_id)).Nodup := by
  rw [cartLines]
  have hsub := filterMap_pid_sublist st (sortBy (fun a b => a.id ≤ b.id)
    (st.cart_items.filter (fun ci =>
      st.carts.any (fun c => c.id = ci.cart_id ∧ c.user_id = uid))))
  have hperm := (sortBy_perm (fun a b => a.id ≤ b.id)
    (st.cart_items.filter (fun ci =>
      st.carts.any (fun c => c.id = ci.cart_id ∧ c.user_id = uid)))).map
      (fun ci => ci.product_id)
  have hnd := filtered_cart_items_pid st uid hwf
  exact (hperm.nodup_iff.mpr hnd).sublist hsub

theorem submit_order_preserves (st : DBState) (uid : Nat)
    (fa : Option (Nat × String)) (hwf : StateWF st) (hinv : invNonneg st) :
    StateWF (submit_order st uid fa).state ∧
    invNonneg (submit_order st uid fa).state := by
  simp only [submit_order]
  split
  · exact ⟨hwf, hinv⟩
  · split
    next e heq => exact ⟨hwf, hinv⟩
    next plans total heq =>
      split
      · exact ⟨hwf, hinv⟩
      · obtain ⟨hv1, hv2, hv3, hv4⟩ :=
          validateLines_ok_spec st uid _ plans total heq
        have hplans : ∀ p ∈ plans, ∃ r ∈ st.inventory,
            r.user_id = p.seller_id ∧ r.product_id = p.product_id ∧
            p.quantity ≤ r.quantity := by
          intro p hp
          obtain ⟨r, hr, h1, h2, h3, _⟩ := hv4 p hp
          exact ⟨r, hr, h1, h2, h3⟩
        have hnodup : (plans.map (fun p => p.product_id)).Nodup := by
          rw [hv2]
          exact cartLines_nodup st uid hwf
        exact submitCommit_preserves st uid plans total fa hwf hinv
          hplans hnodup

theorem applyInvOp_preserves (st : DBState) (op : InvOp)
    (hwf : StateWF st) (hinv : invNonneg st) (hok : invOpOK op) :
    StateWF (applyInvOp st op) ∧ invNonneg (applyInvOp st op) := by
  cases op with
  | add u p q => exact add_product_preserves st u p q hok hwf hinv
  | upd u p q => exact update_product_preserves st u p q hok hwf hinv
  | checkout u fa => exact submit_order_preserves st u fa hwf hinv

theorem invOps_preserve :
    ∀ (ops : List InvOp) (st : DBState), StateWF st → invNonneg st →
    (∀ op ∈ ops, invOpOK op) →
    StateWF (ops.foldl applyInvOp st) ∧ invNonneg (ops.foldl applyInvOp st)
  | [], st, hwf, hinv, _ => ⟨hwf, hinv⟩
  | op :: ops, st, hwf, hinv, hops => by
      rw [List.foldl_cons]
      obtain ⟨h1, h2⟩ := applyInvOp_preserves st op hwf hinv (hops op (.head _))
      exact invOps_preserve ops (applyInvOp st op) h1 h2
        (fun o ho => hops o (.tail _ ho))

/-- C3 (amended): starting from a well-formed state with nonnegative
inventory, any sequence of `add_product_to_inventory` with a nonnegative
quantity, `update_product_quantity` with a nonnegative new quantity, and
`submit_order` (with any fault behaviour) keeps every inventory quantity
nonnegative.  Without the nonnegativity restriction on the externally
supplied quantities the invariant fails, because neither function checks its
argument (see the counterexample). -/
theorem c3_inventory_nonneg (st : DBState) (ops : List InvOp)
    (hwf : StateWF st) (hinv : invNonneg st)
    (hops : ∀ op ∈ ops, invOpOK op) :
    invNonneg (ops.foldl applyInvOp st) :=
  (invOps_preserve ops st hwf hinv hops).2

/-- C3 witness: a restock, a quantity edit and a checkout starting from
Scenario A leave all inventory quantities nonnegative. -/
theorem c3_witness :
    StateWF exA ∧ invNonneg exA ∧
    (∀ op ∈ [InvOp.add 3 10 4, InvOp.upd 3 10 2, InvOp.checkout 1 none],
      invOpOK op) ∧
    invNonneg ([InvOp.add 3 10 4, InvOp.upd 3 10 2,
      InvOp.checkout 1 none].foldl applyInvOp exA) :=
  ⟨by decide, by decide, by decide,
   c3_inventory_nonneg exA _ (by decide) (by decide) (by decide)⟩

theorem get_or_create_cart_fields (st : DBState) (uid : Nat) :
    (get_or_create_cart st uid).1.cart_items = st.cart_items ∧
    (get_or_create_cart st uid).1.products = st.products ∧
    (get_or_create_cart st uid).1.next_cart_item_id = st.next_cart_item_id := by
  rw [get_or_create_cart]
  cases st.carts.find? (fun c => c.user_id = uid) with
  | none => exact ⟨rfl, rfl, rfl⟩
  | some c => exact ⟨rfl, rfl, rfl⟩

theorem find?_products_setAll (st : DBState) (pid : Nat) :
    (setAllUnavailable st).products.find? (fun p => p.id = pid) =
      (st.products.find? (fun p => p.id = pid)).map
        (fun p => { p with available := some false }) := by
  show (st.products.map (fun p => { p with available := some false })).find?
      (fun p => p.id = pid) = _
  rw [List.find?_map]
  rfl

theorem cartLines_setAll (st : DBState) (uid : Nat) :
    cartLines (setAllUnavailable st) uid = cartLines st uid := by
  have h : (fun ci : CartItemRow =>
      ((setAllUnavailable st).products.find? (fun p => p.id = ci.product_id)).map
        (fun p => (⟨ci.product_id, ci.quantity, p.price, p.name⟩ : CartLine))) =
      (fun ci : CartItemRow =>
      (st.products.find? (fun p => p.id = ci.product_id)).map
        (fun p => (⟨ci.product_id, ci.quantity, p.price, p.name⟩ : CartLine))) := by
    funext ci
    rw [find?_products_setAll]
    cases st.products.find? (fun p => p.id = ci.product_id) with
    | none => rfl
    | some p => rfl
  rw [cartLines, cartLines, h]
  rfl

theorem validateLines_setAll (st : DBState) (buyer : Nat) :
    ∀ lines : List CartLine,
      validateLines (setAllUnavailable st) buyer lines =
        validateLines st buyer lines
  | [] => rfl
  | line :: rest => by
      simp only [validateLines]
      have hfs : findSeller (setAllUnavailable st) line.product_id line.quantity
          buyer = findSeller st line.product_id line.quantity buyer := rfl
      rw [hfs, validateLines_setAll st buyer rest]

theorem adjust_balance_setAll (st : DBState) (u : Nat) (d : Int) (n : String) :
    adjust_balance (setAllUnavailable st) u d n =
      (setAllUnavailable (adjust_balance st u d n).1,
       (adjust_balance st u d n).2) := by
  by_cases hd : d = 0
  · subst hd
    rfl
  · simp only [adjust_balance, if_neg hd]
    by_cases hb : get_balance st u + d < 0
    · have hb2 : get_balance (setAllUnavailable st) u + d < 0 := hb
      rw [if_pos hb2, if_pos hb]
    · have hb2 : ¬ get_balance (setAllUnavailable st) u + d < 0 := hb
      rw [if_neg hb2, if_neg hb]
      rfl

theorem insertOrderRow_setAll (st : DBState) (b : Nat) (t : Int) :
    insertOrderRow (setAllUnavailable st) b t =
      (setAllUnavailable (insertOrderRow st b t).1,
       (insertOrderRow st b t).2) := rfl

theorem clearCartItems_setAll (st : DBState) (uid : Nat) :
    clearCartItems (setAllUnavailable st) uid =
      setAllUnavailable (clearCartItems st uid) := by
  rw [clearCartItems, clearCartItems]
  have h : userCartId (setAllUnavailable st) uid = userCartId st uid := rfl
  rw [h]
  cases userCartId st uid with
  | none => rfl
  | some cid => rfl

theorem applyPlanItems_setAll (fa : Option (Nat × String)) (oid : Nat) :
    ∀ (ps : List OrderPlan) (st : DBState) (k : Nat),
      applyPlanItems fa oid (setAllUnavailable st) k ps =
        mapCommitRes setAllUnavailable (applyPlanItems fa oid st k ps)
  | [], st, k => rfl
  | p :: ps, st, k => by
      simp only [applyPlanItems]
      cases failsAt fa k with
      | some e => rfl
      | none =>
          cases failsAt fa (k + 1) with
          | some e => rfl
          | none =>
              exact applyPlanItems_setAll fa oid ps
                (decrementInventory (insertItemRow st oid p) p) (k + 2)

theorem creditSellers_setAll (fa : Option (Nat × String)) (oid : Nat) :
    ∀ (cs : List (Nat × Int)) (st : DBState) (k : Nat),
      creditSellers fa oid (setAllUnavailable st) k cs =
        mapCommitRes setAllUnavailable (creditSellers fa oid st k cs)
  | [], st, k => rfl
  | (s, earn) :: rest, st, k => by
      simp only [creditSellers]
      cases failsAt fa k with
      | some e => rfl
      | none =>
          rw [adjust_balance_setAll]
          cases adjust_balance st s earn ("Order #" ++ toString oid ++ " sale") with
          | mk st1 res =>
              cases res with
              | error e => rfl
              | ok v => exact creditSellers_setAll fa oid rest st1 (k + 1)

theorem submitCommit_setAll (st : DBState) (uid : Nat) (plans : List OrderPlan)
    (total : Int) (fa : Option (Nat × String)) :
    submitCommit (setAllUnavailable st) uid plans total fa =
      ⟨setAllUnavailable (submitCommit st uid plans total fa).state,
       (submitCommit st uid plans total fa).order_id,
       (submitCommit st uid plans total fa).error⟩ := by
  simp only [submitCommit]
  cases failsAt fa 0 with
  | some e => rfl
  | none =>
      rw [insertOrderRow_setAll]
      cases insertOrderRow st uid total with
      | mk st1 oid =>
          dsimp only []
          rw [applyPlanItems_setAll]
          cases applyPlanItems fa oid st1 1 plans with
          | fail stf e => rfl
          | ok st2 k =>
              dsimp only [mapCommitRes]
              cases failsAt fa k with
              | some e => rfl
              | none =>
                  rw [adjust_balance_setAll]
                  cases adjust_balance st2 uid (-total) ("Order #" ++ toString oid) with
                  | mk st3 res =>
                      cases res with
                      | error e => rfl
                      | ok v =>
                          dsimp only []
                          rw [creditSellers_setAll]
                          cases creditSellers fa oid st3 (k + 1) (sellerTotals plans) with
                          | fail stf e => rfl
                          | ok st4 k2 =>
                              dsimp only [mapCommitRes]
                              cases failsAt fa k2 with
                              | some e => rfl
                              | none =>
                                  cases failsAt fa (k2 + 1) with
                                  | some e =>
                                      rw [clearCartItems_setAll]
                                      rfl
                                  | none =>
                                      rw [clearCartItems_setAll]

/-- C10: `submit_order` never re-reads the `available` flag.  First conjunct:
marking every catalog product unavailable changes nothing about a checkout —
for every state, buyer and fault behaviour, `submit_order` on the
all-unavailable state returns the same order id and error, and its final
state is exactly the original final state with every product marked
unavailable (so in particular a checkout that succeeded still succeeds).
Remaining conjuncts: the availability check does run when a `CartItem` row is
first inserted — on a brand-new line both `add_item_to_cart` and
`set_item_quantity` return the `_ensure_product_available` error and insert
nothing, while on an existing line both succeed without consulting
availability at all. -/
theorem c10_availability_only_at_cart_insert :
    (∀ (st : DBState) (uid : Nat) (fa : Option (Nat × String)),
      submit_order (setAllUnavailable st) uid fa =
        ⟨setAllUnavailable (submit_order st uid fa).state,
         (submit_order st uid fa).order_id,
         (submit_order st uid fa).error⟩) ∧
    (∀ (st : DBState) (uid pid : Nat) (qty : Int) (e : String),
      0 < qty →
      st.cart_items.find? (fun ci =>
        ci.cart_id = (get_or_create_cart st uid).2 ∧ ci.product_id = pid) = none →
      ensure_product_available st pid = some e →
      add_item_to_cart st uid pid qty = ((get_or_create_cart st uid).1, some e)) ∧
    (∀ (st : DBState) (uid pid : Nat) (qty : Int) (item : CartItemRow),
      st.cart_items.find? (fun ci =>
        ci.cart_id = (get_or_create_cart st uid).2 ∧ ci.product_id = pid) =
          some item →
      (add_item_to_cart st uid pid qty).2 = none) ∧
    (∀ (st : DBState) (uid pid : Nat) (qty : Int) (e : String),
      0 < qty →
      st.cart_items.any (fun ci =>
        ci.cart_id = (get_or_create_cart st uid).2 ∧ ci.product_id = pid) = false →
      ensure_product_available st pid = some e →
      set_item_quantity st uid pid qty = ((get_or_create_cart st uid).1, some e)) ∧
    (∀ (st : DBState) (uid pid : Nat) (qty : Int),
      0 < qty →
      st.cart_items.any (fun ci =>
        ci.cart_id = (get_or_create_cart st uid).2 ∧ ci.product_id = pid) = true →
      (set_item_quantity st uid pid qty).2 = none) := by
  refine ⟨?_, ?_, ?_, ?_, ?_⟩
  · intro st uid fa
    simp only [submit_order]
    rw [cartLines_setAll]
    by_cases hemp : (cartLines st uid).isEmpty
    · rw [if_pos hemp, if_pos hemp]
    · rw [if_neg hemp, if_neg hemp]
      rw [validateLines_setAll]
      cases validateLines st uid (cartLines st uid) with
      | error e => rfl
      | ok pt =>
          cases pt with
          | mk plans total =>
              dsimp only []
              have hgb : get_balance (setAllUnavailable st) uid =
                  get_balance st uid := rfl
              rw [hgb]
              by_cases hbal : get_balance st uid < total
              · rw [if_pos hbal, if_pos hbal]
              · rw [if_neg hbal, if_neg hbal]
                exact submitCommit_setAll st uid plans total fa
  · intro st uid pid qty e hq hfind hens
    simp only [add_item_to_cart]
    cases hg : get_or_create_cart st uid with
    | mk st1 cid =>
        rw [hg] at hfind
        dsimp only [] at hfind ⊢
        have hst1 : st1 = (get_or_create_cart st uid).1 := by rw [hg]
        have hci : st1.cart_items = st.cart_items := by
          rw [hst1]
          exact (get_or_create_cart_fields st uid).1
        rw [hci, hfind]
        dsimp only []
        rw [if_pos hq]
        have hens1 : ensure_product_available st1 pid = some e := by
          rw [ensure_product_available] at hens ⊢
          rw [hst1, (get_or_create_cart_fields st uid).2.1]
          exact hens
        rw [hens1]
  · intro st uid pid qty item hfind
    simp only [add_item_to_cart]
    cases hg : get_or_create_cart st uid with
    | mk st1 cid =>
        rw [hg] at hfind
        dsimp only [] at hfind ⊢
        have hst1 : st1 = (get_or_create_cart st uid).1 := by rw [hg]
        have hci : st1.cart_items = st.cart_items := by
          rw [hst1]
          exact (get_or_create_cart_fields st uid).1
        rw [hci, hfind]
        dsimp only []
        by_cases hle : item.quantity + qty ≤ 0
        · rw [if_pos hle]
        · rw [if_neg hle]
  · intro st uid pid qty e hq hany hens
    have hq2 : ¬ qty ≤ 0 := by omega
    simp only [set_item_quantity]
    cases hg : get_or_create_cart st uid with
    | mk st1 cid =>
        rw [hg] at hany
        dsimp only [] at hany ⊢
        have hst1 : st1 = (get_or_create_cart st uid).1 := by rw [hg]
        have hci : st1.cart_items = st.cart_items := by
          rw [hst1]
          exact (get_or_create_cart_fields st uid).1
        rw [if_neg hq2]
        have hany1 : ¬ (st1.cart_items.any (fun ci =>
            ci.cart_id = cid ∧ ci.product_id = pid) = true) := by
          rw [hci, hany]
          exact Bool.false_ne_true
        rw [if_neg hany1]
        have hens1 : ensure_product_available st1 pid = some e := by
          rw [ensure_product_available] at hens ⊢
          rw [hst1, (get_or_create_cart_fields st uid).2.1]
          exact hens
        rw [hens1]
  · intro st uid pid qty hq hany
    have hq2 : ¬ qty ≤ 0 := by omega
    simp only [set_item_quantity]
    cases hg : get_or_create_cart st uid with
    | mk st1 cid =>
        rw [hg] at hany
        dsimp only [] at hany ⊢
        have hst1 : st1 = (get_or_create_cart st uid).1 := by rw [hg]
        have hci : st1.cart_items = st.cart_items := by
          rw [hst1]
          exact (get_or_create_cart_fields st uid).1
        have hany1 : st1.cart_items.any (fun ci =>
            ci.cart_id = cid ∧ ci.product_id = pid) = true := by
          rw [hci]
          exact hany
        rw [if_neg hq2, if_pos hany1]

/-- C10 witness: on Scenario A with the product flagged unavailable, checkout
still runs identically; a fresh cart line for the unavailable product is
rejected by both insert paths, while touching the existing line succeeds. -/
theorem c10_witness :
    submit_order (setAllUnavailable exA) 1 none =
      ⟨setAllUnavailable (submit_order exA 1 none).state,
       (submit_order exA 1 none).order_id,
       (submit_order exA 1 none).error⟩ ∧
    ((0:Int) < 2 ∧
      exAUnavailable.cart_items.find? (fun ci =>
        ci.cart_id = (get_or_create_cart exAUnavailable 2).2 ∧
        ci.product_id = 10) = none ∧
      ensure_product_available exAUnavailable 10 =
        some "Product is not available for purchase right now." ∧
      add_item_to_cart exAUnavailable 2 10 2 =
        ((get_or_create_cart exAUnavailable 2).1,
         some "Product is not available for purchase right now.")) ∧
    (exAUnavailable.cart_items.find? (fun ci =>
        ci.cart_id = (get_or_create_cart exAUnavailable 1).2 ∧
        ci.product_id = 10) = some ⟨1, 1, 10, 1⟩ ∧
      (add_item_to_cart exAUnavailable 1 10 3).2 = none) ∧
    ((0:Int) < 2 ∧
      exAUnavailable.cart_items.any (fun ci =>
        ci.cart_id = (get_or_create_cart exAUnavailable 2).2 ∧
        ci.product_id = 10) = false ∧
      set_item_quantity exAUnavailable 2 10 2 =
        ((get_or_create_cart exAUnavailable 2).1,
         some "Product is not available for purchase right now.")) ∧
    ((0:Int) < 4 ∧
      exAUnavailable.cart_items.any (fun ci =>
        ci.cart_id = (get_or_create_cart exAUnavailable 1).2 ∧
        ci.product_id = 10) = true ∧
      (set_item_quantity exAUnavailable 1 10 4).2 = none) :=
  ⟨c10_availability_only_at_cart_insert.1 exA 1 none,
   ⟨by decide, by decide, by decide,
    c10_availability_only_at_cart_insert.2.1 exAUnavailable 2 10 2 _
      (by decide) (by decide) (by decide)⟩,
   ⟨by decide,
    c10_availability_only_at_cart_insert.2.2.1 exAUnavailable 1 10 3 ⟨1, 1, 10, 1⟩
      (by decide)⟩,
   ⟨by decide, by decide,
    c10_availability_only_at_cart_insert.2.2.2.1 exAUnavailable 2 10 2 _
      (by decide) (by decide) (by decide)⟩,
   ⟨by decide, by decide,
    c10_availability_only_at_cart_insert.2.2.2.2 exAUnavailable 1 10 4
      (by decide) (by decide)⟩⟩

end Theorems

end MiniAmazon
